import Mathlib

/-!
Shallow embedding of the ebustl-rs EBU STL subtitle codec
(src/lib.rs and src/parser.rs) together with proofs about its
specification claims.  Bytes are modelled as natural numbers (values
below 256 in every real input), byte buffers as lists, and fallible
code as Except / Option values.
-/

set_option maxRecDepth 10000

/-- UTF-8 encoding of a single character, as the Rust String::into_bytes
conversion produces it (one to four bytes). -/
def utf8EncodeChar (c : Char) : List Nat :=
  let n := c.toNat
  if n < 0x80 then [n]
  else if n < 0x800 then [0xC0 + n / 64, 0x80 + n % 64]
  else if n < 0x10000 then [0xE0 + n / 4096, 0x80 + n / 64 % 64, 0x80 + n % 64]
  else [0xF0 + n / 262144, 0x80 + n / 4096 % 64, 0x80 + n / 64 % 64, 0x80 + n % 64]

/-- UTF-8 encoding of a whole string (Rust str::as_bytes / String::into_bytes). -/
def utf8Encode (s : String) : List Nat :=
  (s.data.map utf8EncodeChar).flatten

/-- Collect k UTF-8 continuation bytes into a code point accumulator;
fails on a missing or malformed continuation byte. -/
def utf8CC : Nat → Nat → List Nat → Option (Nat × List Nat)
  | 0, cp, l => some (cp, l)
  | _ + 1, _, [] => none
  | k + 1, cp, b :: rest =>
    if 0x80 ≤ b ∧ b < 0xC0 then utf8CC k (cp * 64 + (b - 0x80)) rest else none

/-- UTF-8 decoding with validation, as Rust str::from_utf8 performs it:
rejects bad leading bytes, bad continuation bytes, overlong forms,
surrogates and out-of-range code points.  The fuel only bounds the
number of decoded characters; each character consumes at least one
byte, so any fuel at or above the input length gives the decoder
itself. -/
def utf8DecodeF : Nat → List Nat → Option (List Char)
  | _, [] => some []
  | 0, _ :: _ => none
  | fuel + 1, b :: rest =>
    if b < 0x80 then (utf8DecodeF fuel rest).map (fun cs => Char.ofNat b :: cs)
    else if b < 0xC2 then none
    else if b < 0xE0 then
      match utf8CC 1 (b - 0xC0) rest with
      | some (cp, rest2) =>
        if 0x80 ≤ cp ∧ cp < 0x800 then
          (utf8DecodeF fuel rest2).map (fun cs => Char.ofNat cp :: cs)
        else none
      | none => none
    else if b < 0xF0 then
      match utf8CC 2 (b - 0xE0) rest with
      | some (cp, rest2) =>
        if 0x800 ≤ cp ∧ (cp < 0xD800 ∨ 0xDFFF < cp) then
          (utf8DecodeF fuel rest2).map (fun cs => Char.ofNat cp :: cs)
        else none
      | none => none
    else if b < 0xF5 then
      match utf8CC 3 (b - 0xF0) rest with
      | some (cp, rest2) =>
        if 0x10000 ≤ cp ∧ cp < 0x110000 then
          (utf8DecodeF fuel rest2).map (fun cs => Char.ofNat cp :: cs)
        else none
      | none => none
    else none

def utf8Decode (l : List Nat) : Option (List Char) :=
  utf8DecodeF l.length l

/-- Little-endian decimal digits of a number, fuel-driven (fuel above the
value is always enough). -/
def natDigitsLE : Nat → Nat → List Char
  | 0, _ => []
  | fuel + 1, n =>
    if n < 10 then [Char.ofNat (48 + n)]
    else Char.ofNat (48 + n % 10) :: natDigitsLE fuel (n / 10)

/-- Decimal rendering of a natural number, as Rust Display for integers. -/
def natToChars (n : Nat) : List Char :=
  (natDigitsLE (n + 1) n).reverse

def natToStr (n : Nat) : String :=
  String.mk (natToChars n)

/-- The Rust format specifier with a zero-pad minimum width, for example
a five-wide zero-padded field: pads with zeros up to the width, but
prints all digits when the value needs more. -/
def formatNum (w : Nat) (n : Nat) : String :=
  String.mk (List.replicate (w - (natToChars n).length) (Char.ofNat 48) ++ natToChars n)

def charDigit (c : Char) : Option Nat :=
  if 48 ≤ c.toNat ∧ c.toNat ≤ 57 then some (c.toNat - 48) else none

def parseDigitsVal (cs : List Char) : Option Nat :=
  cs.foldl
    (fun acc c =>
      match acc, charDigit c with
      | some a, some d => some (a * 10 + d)
      | _, _ => none)
    (some 0)

/-- The digit run of Rust unsigned from_str after the optional sign:
one or more decimal digits with an overflow check; errors carry the std
ParseIntError display strings. -/
def u16Digits (ds : List Char) : Except String Nat :=
  match ds with
  | [] => Except.error "cannot parse integer from empty string"
  | _ =>
    match parseDigitsVal ds with
    | none => Except.error "invalid digit found in string"
    | some v =>
      if v ≤ 65535 then Except.ok v
      else Except.error "number too large to fit in target type"

/-- Rust u16::from_str: optional leading plus sign, one or more decimal
digits, value bounded by the u16 maximum. -/
def u16FromStrE (cs : List Char) : Except String Nat :=
  match cs with
  | [] => Except.error "cannot parse integer from empty string"
  | c :: rest => u16Digits (if c = Char.ofNat 43 then rest else c :: rest)

def u8Digits (ds : List Char) : Except String Nat :=
  match ds with
  | [] => Except.error "cannot parse integer from empty string"
  | _ =>
    match parseDigitsVal ds with
    | none => Except.error "invalid digit found in string"
    | some v =>
      if v ≤ 255 then Except.ok v
      else Except.error "number too large to fit in target type"

/-- Rust u8::from_str, as u16FromStrE with the u8 bound. -/
def u8FromStrE (cs : List Char) : Except String Nat :=
  match cs with
  | [] => Except.error "cannot parse integer from empty string"
  | c :: rest => u8Digits (if c = Char.ofNat 43 then rest else c :: rest)

-- Closed-set enums of the GSI and TTI blocks (src/lib.rs).

inductive CodePageNumber
  | CPN_437
  | CPN_850
  | CPN_860
  | CPN_863
  | CPN_865
  deriving DecidableEq

inductive DisplayStandardCode
  | Blank
  | OpenSubtitling
  | Level1Teletext
  | Level2Teletext
  deriving DecidableEq

inductive TimeCodeStatus
  | NotIntendedForUse
  | IntendedForUse
  deriving DecidableEq

inductive CharacterCodeTable
  | Latin
  | LatinCyrillic
  | LatinArabic
  | LatinGreek
  | LatinHebrew
  deriving DecidableEq

inductive DiskFormatCode
  | STL25_01
  | STL30_01
  deriving DecidableEq

inductive CumulativeStatus
  | NotPartOfASet
  | FirstInSet
  | IntermediateInSet
  | LastInSet
  deriving DecidableEq

/-- Error type of src/parser.rs (ParseError). -/
inductive ParseError
  | IoError (msg : String)
  | Incomplete
  | CodePageNumber (n : Nat)
  | DisplayStandardCode
  | TimeCodeStatus
  | DiskFormatCode (s : String)
  | CharacterCodeTable
  | CumulativeStatus
  | NomParsingError (message : String)
  | Unknown
  deriving DecidableEq

/-- The thiserror Display strings of ParseError. -/
def displayParseError : ParseError → String
  | ParseError.IoError s => "IoError: " ++ s
  | ParseError.Incomplete => "Error parsing, file may be incomplete or corrupted"
  | ParseError.CodePageNumber n => "Unknown Code Page Number: " ++ natToStr n
  | ParseError.DisplayStandardCode => "Error parsing Display Standard Code"
  | ParseError.TimeCodeStatus => "Error parsing Time Code Status"
  | ParseError.DiskFormatCode s => "Error parsing Disk Format Code: " ++ s
  | ParseError.CharacterCodeTable => "Error parsing Character Code Table"
  | ParseError.CumulativeStatus => "Error parsing Cumulative Status"
  | ParseError.NomParsingError m => "Parse error: " ++ m
  | ParseError.Unknown => "Unknown error"

-- Legacy 8-bit text codecs.

/-- Modelled from the spec: the codepage_strings decoder used for the
GSI free-text fields (an external crate).  Each of the five supported
single-byte OEM code pages decodes every byte to exactly one character
and agrees with ASCII below 0x80; bytes of the high half decode to
code-page specific non-ASCII characters, represented here by the
displaced code points 0x100 + b. -/
def cpDecodeByte (b : Nat) : Char :=
  if b ≤ 0x7F then Char.ofNat b else Char.ofNat (0x100 + b)

/-- Modelled from the spec: codepage_strings decode_lossy, which never
fails.  The code-page number selects the table; the tables share the
structure modelled by cpDecodeByte. -/
def cpDecode (_codepage : Nat) (l : List Nat) : String :=
  String.mk (l.map cpDecodeByte)

/-- Modelled from the spec: the textcode single-byte legacy encoders
(iso6937 / iso8859 variants, an external crate).  Characters of the
ASCII range encode to their own byte; the displaced high code points
0x1A0 to 0x1FF (images of the high half under decoding) encode back to
their byte; anything else gets the substitution byte 0x3F. -/
def textEncodeChar (c : Char) : Nat :=
  if c.toNat ≤ 0x7F then c.toNat
  else if 0x1A0 ≤ c.toNat ∧ c.toNat ≤ 0x1FF then c.toNat - 0x100
  else 0x3F

def textEncode (_cct : CharacterCodeTable) (s : String) : List Nat :=
  s.data.map textEncodeChar

/-- Modelled from the spec: the textcode single-byte legacy decoders;
one character per byte, ASCII below 0x80, displaced code points for the
high half. -/
def textDecodeByte (b : Nat) : Char :=
  if b ≤ 0x7F then Char.ofNat b else Char.ofNat (0x100 + b)

def textDecodeChars (_cct : CharacterCodeTable) (l : List Nat) : List Char :=
  l.map textDecodeByte

-- Teletext framing codec (TtiBlock::encode_text / TtiBlock::get_text).

/-- TtiBlock::encode_text (src/lib.rs lines 677 to 707): legacy-encode the
text, prepend 0x0D when double height then two 0x0B bytes, truncate to
109 bytes, append 0x0A 0x0A 0x8A, pad with 0x8F to 112 bytes. -/
def encode_text (txt : String) (dh : Bool) (cct : CharacterCodeTable) : List Nat :=
  let text := textEncode cct txt
  let res := (if dh then [0x0D] else []) ++ [0x0B, 0x0B] ++ text
  let res2 := res.take 109
  let res3 := res2 ++ [0x0A, 0x0A, 0x8A]
  res3 ++ List.replicate (112 - res3.length) 0x8F

/-- The control-byte classification of TtiBlock::get_text: byte ranges
0x00 to 0x1F and 0x80 to 0x9F are control, the rest content. -/
def ttiIsControl (b : Nat) : Bool :=
  decide (b ≤ 0x1F ∨ (0x80 ≤ b ∧ b ≤ 0x9F))

/-- The loop of TtiBlock::get_text (src/lib.rs lines 709 to 740), with the
current content run carried explicitly: at a control byte the pending
run (the slice from the last control byte) is decoded and flushed if
non-empty, 0x8F stops the loop, 0x8A appends CR LF; a trailing content
run at the end of input is dropped, exactly as in the source. -/
def getTextLoop (cct : CharacterCodeTable) : List Nat → List Nat → List Char → List Char
  | [], _pending, acc => acc
  | c :: rest, pending, acc =>
    if ttiIsControl c then
      let acc2 := if pending = [] then acc else acc ++ textDecodeChars cct pending
      if c = 0x8F then acc2
      else if c = 0x8A then getTextLoop cct rest [] (acc2 ++ [Char.ofNat 13, Char.ofNat 10])
      else getTextLoop cct rest [] acc2
    else getTextLoop cct rest (pending ++ [c]) acc

/-- TtiBlock::get_text on a raw text field. -/
def decodeTextField (cct : CharacterCodeTable) (tf : List Nat) : String :=
  String.mk (getTextLoop cct tf [] [])

-- Enum parse / serialize lookup tables (src/lib.rs).

def CodePageNumber.serialize : CodePageNumber → List Nat
  | CodePageNumber.CPN_437 => [0x34, 0x33, 0x37]
  | CodePageNumber.CPN_850 => [0x38, 0x35, 0x30]
  | CodePageNumber.CPN_860 => [0x38, 0x36, 0x30]
  | CodePageNumber.CPN_863 => [0x38, 0x36, 0x33]
  | CodePageNumber.CPN_865 => [0x38, 0x36, 0x35]

def CodePageNumber.from_u16 (codepage : Nat) : Except ParseError CodePageNumber :=
  if codepage = 437 then Except.ok CodePageNumber.CPN_437
  else if codepage = 850 then Except.ok CodePageNumber.CPN_850
  else if codepage = 860 then Except.ok CodePageNumber.CPN_860
  else if codepage = 863 then Except.ok CodePageNumber.CPN_863
  else if codepage = 865 then Except.ok CodePageNumber.CPN_865
  else Except.error (ParseError.CodePageNumber codepage)

def DisplayStandardCode.parse (data : Nat) : Except ParseError DisplayStandardCode :=
  if data = 0x20 then Except.ok DisplayStandardCode.Blank
  else if data = 0x30 then Except.ok DisplayStandardCode.OpenSubtitling
  else if data = 0x31 then Except.ok DisplayStandardCode.Level1Teletext
  else if data = 0x32 then Except.ok DisplayStandardCode.Level2Teletext
  else Except.error ParseError.DisplayStandardCode

def DisplayStandardCode.serialize : DisplayStandardCode → Nat
  | DisplayStandardCode.Blank => 0x20
  | DisplayStandardCode.OpenSubtitling => 0x30
  | DisplayStandardCode.Level1Teletext => 0x31
  | DisplayStandardCode.Level2Teletext => 0x32

def TimeCodeStatus.parse (data : Nat) : Except ParseError TimeCodeStatus :=
  if data = 0x30 then Except.ok TimeCodeStatus.NotIntendedForUse
  else if data = 0x31 then Except.ok TimeCodeStatus.IntendedForUse
  else Except.error ParseError.TimeCodeStatus

def TimeCodeStatus.serialize : TimeCodeStatus → Nat
  | TimeCodeStatus.NotIntendedForUse => 0x30
  | TimeCodeStatus.IntendedForUse => 0x31

def CharacterCodeTable.parse (data : List Nat) : Except ParseError CharacterCodeTable :=
  if data.length ≠ 2 then Except.error ParseError.CharacterCodeTable
  else if data.headI ≠ 0x30 then Except.error ParseError.CharacterCodeTable
  else
    match data.getLastI with
    | 0x30 => Except.ok CharacterCodeTable.Latin
    | 0x31 => Except.ok CharacterCodeTable.LatinCyrillic
    | 0x32 => Except.ok CharacterCodeTable.LatinArabic
    | 0x33 => Except.ok CharacterCodeTable.LatinGreek
    | 0x34 => Except.ok CharacterCodeTable.LatinHebrew
    | _ => Except.error ParseError.CharacterCodeTable

def CharacterCodeTable.serialize : CharacterCodeTable → List Nat
  | CharacterCodeTable.Latin => [0x30, 0x30]
  | CharacterCodeTable.LatinCyrillic => [0x30, 0x31]
  | CharacterCodeTable.LatinArabic => [0x30, 0x32]
  | CharacterCodeTable.LatinGreek => [0x30, 0x33]
  | CharacterCodeTable.LatinHebrew => [0x30, 0x34]

def DiskFormatCode.parse (data : String) : Except ParseError DiskFormatCode :=
  if data = "STL25.01" then Except.ok DiskFormatCode.STL25_01
  else if data = "STL30.01" then Except.ok DiskFormatCode.STL30_01
  else Except.error (ParseError.DiskFormatCode data)

def DiskFormatCode.serialize : DiskFormatCode → List Nat
  | DiskFormatCode.STL25_01 => utf8Encode "STL25.01"
  | DiskFormatCode.STL30_01 => utf8Encode "STL30.01"

def DiskFormatCode.get_fps : DiskFormatCode → Nat
  | DiskFormatCode.STL25_01 => 25
  | DiskFormatCode.STL30_01 => 30

def CumulativeStatus.parse (d : Nat) : Except ParseError CumulativeStatus :=
  if d = 0 then Except.ok CumulativeStatus.NotPartOfASet
  else if d = 1 then Except.ok CumulativeStatus.FirstInSet
  else if d = 2 then Except.ok CumulativeStatus.IntermediateInSet
  else if d = 3 then Except.ok CumulativeStatus.LastInSet
  else Except.error ParseError.CumulativeStatus

def CumulativeStatus.serialize : CumulativeStatus → Nat
  | CumulativeStatus.NotPartOfASet => 0
  | CumulativeStatus.FirstInSet => 1
  | CumulativeStatus.IntermediateInSet => 2
  | CumulativeStatus.LastInSet => 3

-- Data model (src/lib.rs).  u16 and u8 fields become Nat; the u16
-- wrap-around of the counter increments is written out explicitly.

/-- The GSI header block, field for field as in the source.  String
fields hold decoded text; numeric fields are the u16 / u8 counters. -/
structure GsiBlock where
  cpn : CodePageNumber
  dfc : DiskFormatCode
  dsc : DisplayStandardCode
  cct : CharacterCodeTable
  lc : String
  opt : String
  oet : String
  tpt : String
  tet : String
  tn : String
  tcd : String
  slr : String
  cd : String
  rd : String
  rn : String
  tnb : Nat
  tns : Nat
  tng : Nat
  mnc : Nat
  mnr : Nat
  tcs : TimeCodeStatus
  tcp : String
  tcf : String
  tnd : Nat
  dsn : Nat
  co : String
  pub_ : String
  en : String
  ecd : String
  _spare : String
  uda : String
  deriving DecidableEq

structure Time where
  hours : Nat
  minutes : Nat
  seconds : Nat
  frames : Nat
  deriving DecidableEq

def Time.serialize (t : Time) : List Nat :=
  [t.hours, t.minutes, t.seconds, t.frames]

/-- The TTI subtitle record, field for field as in the source, including
the duplicated CharacterCodeTable. -/
structure TtiBlock where
  sgn : Nat
  sn : Nat
  ebn : Nat
  cs : CumulativeStatus
  tci : Time
  tco : Time
  vp : Nat
  jc : Nat
  cf : Nat
  tf : List Nat
  cct : CharacterCodeTable
  deriving DecidableEq

structure TtiFormat where
  jc : Nat
  vp : Nat
  dh : Bool

structure Stl where
  gsi : GsiBlock
  ttis : List TtiBlock
  deriving DecidableEq

def TtiBlock.get_text (t : TtiBlock) : String :=
  decodeTextField t.cct t.tf

/-- TtiBlock::new: fresh record with group 0, extension block 0xFF, not
part of a set, comment flag 0, and the teletext-framed encoded text. -/
def TtiBlock.new (idx : Nat) (tci tco : Time) (txt : String) (opt : TtiFormat)
    (cct : CharacterCodeTable) : TtiBlock :=
  { sgn := 0
    sn := idx
    ebn := 0xFF
    cs := CumulativeStatus.NotPartOfASet
    tci := tci
    tco := tco
    vp := opt.vp
    jc := opt.jc
    cf := 0
    tf := encode_text txt opt.dh cct
    cct := cct }

/-- TtiBlock::serialize: 16 header bytes then the raw 112-byte text
field.  The subtitle number is written little-endian, low byte first,
with the u8 casts of the source written as remainders. -/
def TtiBlock.serialize (t : TtiBlock) : List Nat :=
  [t.sgn, t.sn % 256, t.sn / 256 % 256, t.ebn, t.cs.serialize]
    ++ t.tci.serialize ++ t.tco.serialize
    ++ [t.vp, t.jc, t.cf] ++ t.tf

/-- push_string (src/lib.rs lines 415 to 420): append the UTF-8 bytes of
the string, then pad with spaces to the field width.  The source
computes the padding with an unchecked usize subtraction that panics
(or wraps) when the string is longer than the field; that case is
modelled as none. -/
def push_string (v : List Nat) (s : String) (len : Nat) : Option (List Nat) :=
  let addendum := utf8Encode s
  if addendum.length ≤ len then
    some (v ++ addendum ++ List.replicate (len - addendum.length) 0x20)
  else none

/-- Monomorphic Option bind, used to chain the fallible serialization
steps (a plain match, convenient for the proofs below). -/
def obind {α β : Type} (x : Option α) (f : α → Option β) : Option β :=
  match x with
  | none => none
  | some a => f a

/-- GsiBlock::serialize (src/lib.rs lines 461 to 499), field order and
widths as in the source; none models the panic on an over-width field. -/
def GsiBlock.serialize (g : GsiBlock) : Option (List Nat) :=
  obind (push_string (g.cpn.serialize ++ g.dfc.serialize ++ [g.dsc.serialize] ++ g.cct.serialize) g.lc 2) (fun r1 =>
  obind (push_string r1 g.opt 32) (fun r2 =>
  obind (push_string r2 g.oet 32) (fun r3 =>
  obind (push_string r3 g.tpt 32) (fun r4 =>
  obind (push_string r4 g.tet 32) (fun r5 =>
  obind (push_string r5 g.tn 32) (fun r6 =>
  obind (push_string r6 g.tcd 32) (fun r7 =>
  obind (push_string r7 g.slr 16) (fun r8 =>
  obind (push_string r8 g.cd 6) (fun r9 =>
  obind (push_string r9 g.rd 6) (fun r10 =>
  obind (push_string r10 g.rn 2) (fun r11 =>
  obind (push_string r11 (formatNum 5 g.tnb) 5) (fun r12 =>
  obind (push_string r12 (formatNum 5 g.tns) 5) (fun r13 =>
  obind (push_string r13 (formatNum 3 g.tng) 3) (fun r14 =>
  obind (push_string r14 (formatNum 2 g.mnc) 2) (fun r15 =>
  obind (push_string r15 (formatNum 2 g.mnr) 2) (fun r16 =>
  obind (push_string (r16 ++ [g.tcs.serialize]) g.tcp 8) (fun r18 =>
  obind (push_string r18 g.tcf 8) (fun r19 =>
  obind (push_string r19 (formatNum 1 g.tnd) 1) (fun r20 =>
  obind (push_string r20 (formatNum 1 g.dsn) 1) (fun r21 =>
  obind (push_string r21 g.co 3) (fun r22 =>
  obind (push_string r22 g.pub_ 32) (fun r23 =>
  obind (push_string r23 g.en 32) (fun r24 =>
  obind (push_string r24 g.ecd 32) (fun r25 =>
  obind (push_string r25 g._spare 75) (fun r26 =>
  push_string r26 g.uda 576)))))))))))))))))))))))))

/-- Stl::add_sub (src/lib.rs lines 56 to 65): increment the block counter,
build the record with the incremented counter as its subtitle number and
the header character code table, increment the subtitle counter, append
the record.  The counters are u16 in the source: the increment wraps at
65536 (release semantics; a debug build panics at the same point). -/
def Stl.add_sub (stl : Stl) (tci tco : Time) (txt : String) (opt : TtiFormat) : Stl :=
  let tnb2 := (stl.gsi.tnb + 1) % 65536
  let tti := TtiBlock.new tnb2 tci tco txt opt stl.gsi.cct
  { gsi := { stl.gsi with tnb := tnb2, tns := (stl.gsi.tns + 1) % 65536 }
    ttis := stl.ttis ++ [tti] }

/-- Stl::write_to_file without the file: the serialized GSI block
followed by each TTI block in sequence order. -/
def Stl.serialize (stl : Stl) : Option (List Nat) :=
  obind stl.gsi.serialize (fun h =>
  some (h ++ (stl.ttis.map TtiBlock.serialize).flatten))

-- Parser embedding (src/parser.rs).  A nom streaming parser returns
-- either a value with the remaining input, or a nom error: Incomplete,
-- a recoverable Error, or a Failure (the latter two carrying ParseError).

inductive NomErr
  | incomplete
  | error (e : ParseError)
  | failure (e : ParseError)
  deriving DecidableEq

/-- The From nom::Err impl of src/parser.rs (lines 78 to 90): Incomplete
becomes ParseError::Incomplete, while Error and Failure are re-wrapped
as NomParsingError around the Display rendering of the carried error. -/
def parseErrorOfNomErr : NomErr → ParseError
  | NomErr.incomplete => ParseError.Incomplete
  | NomErr.error e => ParseError.NomParsingError (displayParseError e)
  | NomErr.failure e => ParseError.NomParsingError (displayParseError e)

abbrev PRes (α : Type) := Except NomErr (List Nat × α)

/-- Monomorphic sequencing of parser steps (the tuple combinator of the
source, one step at a time). -/
def pbind {α β : Type} (x : PRes α) (f : List Nat → α → PRes β) : PRes β :=
  match x with
  | Except.error e => Except.error e
  | Except.ok (i, a) => f i a

/-- The map_err(nom::Err::Error) pattern of the source: a ParseError
escalated into the nom error channel. -/
def ebind {α β : Type} (x : Except ParseError α) (f : α → PRes β) : PRes β :=
  match x with
  | Except.error e => Except.error (NomErr.error e)
  | Except.ok a => f a

/-- nom bytes::streaming::take: n bytes or Incomplete. -/
def nomTake (n : Nat) (i : List Nat) : PRes (List Nat) :=
  if n ≤ i.length then Except.ok (i.drop n, i.take n) else Except.error NomErr.incomplete

/-- nom number::streaming::be_u8. -/
def nomBeU8 (i : List Nat) : PRes Nat :=
  match i with
  | [] => Except.error NomErr.incomplete
  | b :: rest => Except.ok (rest, b)

/-- nom number::streaming::le_u16 (low byte first). -/
def nomLeU16 (i : List Nat) : PRes Nat :=
  match i with
  | a :: b :: rest => Except.ok (rest, a + 256 * b)
  | _ => Except.error NomErr.incomplete

/-- take_str of the source (src/parser.rs lines 104 to 120): take n bytes
and check them as UTF-8; a validation failure produces the Fail error
kind message. -/
def nomTakeStr (n : Nat) (i : List Nat) : PRes (List Char) :=
  match nomTake n i with
  | Except.error e => Except.error e
  | Except.ok (rest, bytes) =>
    match utf8Decode bytes with
    | some cs => Except.ok (rest, cs)
    | none => Except.error (NomErr.error (ParseError.NomParsingError "Fail"))

/-- nom map_res with a fallible conversion whose error is shown by its
Display string: a conversion failure becomes the MapRes error message
(the FromExternalError impl of the source, lines 68 to 76). -/
def mapResS {α β : Type} (p : PRes α) (f : α → Except String β) : PRes β :=
  match p with
  | Except.error e => Except.error e
  | Except.ok (i, a) =>
    match f a with
    | Except.ok b => Except.ok (i, b)
    | Except.error msg => Except.error (NomErr.error (ParseError.NomParsingError ("MapRes:\n" ++ msg)))

/-- map_res over a conversion returning ParseError. -/
def mapResP {α β : Type} (p : PRes α) (f : α → Except ParseError β) : PRes β :=
  mapResS p (fun a => (f a).mapError displayParseError)

def pTakeU16Str (n : Nat) (i : List Nat) : PRes Nat :=
  mapResS (nomTakeStr n i) u16FromStrE

def pTakeU8Str (n : Nat) (i : List Nat) : PRes Nat :=
  mapResS (nomTakeStr n i) u8FromStrE

def pDfc (i : List Nat) : PRes DiskFormatCode :=
  mapResP (nomTakeStr 8 i) (fun cs => DiskFormatCode.parse (String.mk cs))

def pDsc (i : List Nat) : PRes DisplayStandardCode :=
  mapResP (nomBeU8 i) DisplayStandardCode.parse

def pTcs (i : List Nat) : PRes TimeCodeStatus :=
  mapResP (nomBeU8 i) TimeCodeStatus.parse

def pCct (i : List Nat) : PRes CharacterCodeTable :=
  mapResP (nomTake 2 i) CharacterCodeTable.parse

def pCs (i : List Nat) : PRes CumulativeStatus :=
  mapResP (nomBeU8 i) CumulativeStatus.parse

/-- map_res(take n, coding.parse): the code-page text decoding of a GSI
free-text field; the lossy decoder never fails. -/
def pText (cp : Nat) (n : Nat) (i : List Nat) : PRes String :=
  match nomTake n i with
  | Except.error e => Except.error e
  | Except.ok (r, bs) => Except.ok (r, cpDecode cp bs)

/-- CodePageDecoder::new: wraps codepage_strings Coding::new, which
supports the five code pages reachable here (it is only called after
CodePageNumber::from_u16 has accepted the number). -/
def codingNew (n : Nat) : Except ParseError Nat :=
  if n = 437 ∨ n = 850 ∨ n = 860 ∨ n = 863 ∨ n = 865 then Except.ok n
  else Except.error (ParseError.CodePageNumber n)

/-- parse_gsi_block (src/parser.rs lines 122 to 201): the fixed-offset
field sequence of the 1024-byte GSI block, in source order; the
code-page number is validated (and the header text decoder selected)
right after the first four fields. -/
def parse_gsi_block (input : List Nat) : PRes GsiBlock :=
  pbind (pTakeU16Str 3 input) (fun i0 codepage =>
  pbind (pDfc i0) (fun i1 dfc =>
  pbind (pDsc i1) (fun i2 dsc =>
  pbind (pCct i2) (fun i3 cct =>
  ebind (CodePageNumber.from_u16 codepage) (fun cpn =>
  ebind (codingNew codepage) (fun cp =>
  pbind (pText cp 2 i3) (fun i4 lc =>
  pbind (pText cp 32 i4) (fun i5 opt =>
  pbind (pText cp 32 i5) (fun i6 oet =>
  pbind (pText cp 32 i6) (fun i7 tpt =>
  pbind (pText cp 32 i7) (fun i8 tet =>
  pbind (pText cp 32 i8) (fun i9 tn =>
  pbind (pText cp 32 i9) (fun i10 tcd =>
  pbind (pText cp 16 i10) (fun i11 slr =>
  pbind (pText cp 6 i11) (fun i12 cd =>
  pbind (pText cp 6 i12) (fun i13 rd =>
  pbind (pText cp 2 i13) (fun i14 rn =>
  pbind (pTakeU16Str 5 i14) (fun i15 tnb =>
  pbind (pTakeU16Str 5 i15) (fun i16 tns =>
  pbind (pTakeU16Str 3 i16) (fun i17 tng =>
  pbind (pTakeU16Str 2 i17) (fun i18 mnc =>
  pbind (pTakeU16Str 2 i18) (fun i19 mnr =>
  pbind (pTcs i19) (fun i20 tcs =>
  pbind (pText cp 8 i20) (fun i21 tcp =>
  pbind (pText cp 8 i21) (fun i22 tcf =>
  pbind (pTakeU8Str 1 i22) (fun i23 tnd =>
  pbind (pTakeU8Str 1 i23) (fun i24 dsn =>
  pbind (pText cp 3 i24) (fun i25 co =>
  pbind (pText cp 32 i25) (fun i26 pub_ =>
  pbind (pText cp 32 i26) (fun i27 en =>
  pbind (pText cp 32 i27) (fun i28 ecd =>
  pbind (pText cp 75 i28) (fun i29 _spare =>
  pbind (pText cp 576 i29) (fun i30 uda =>
  Except.ok (i30,
    { cpn := cpn, dfc := dfc, dsc := dsc, cct := cct, lc := lc, opt := opt
      oet := oet, tpt := tpt, tet := tet, tn := tn, tcd := tcd, slr := slr
      cd := cd, rd := rd, rn := rn, tnb := tnb, tns := tns, tng := tng
      mnc := mnc, mnr := mnr, tcs := tcs, tcp := tcp, tcf := tcf
      tnd := tnd, dsn := dsn, co := co, pub_ := pub_, en := en, ecd := ecd
      _spare := _spare, uda := uda }))))))))))))))))))))))))))))))))))

/-- parse_time: four raw bytes, hours minutes seconds frames. -/
def parse_time (i : List Nat) : PRes Time :=
  match i with
  | h :: m :: s :: f :: rest => Except.ok (rest, { hours := h, minutes := m, seconds := s, frames := f })
  | _ => Except.error NomErr.incomplete

/-- parse_tti_block (src/parser.rs lines 208 to 243): empty input is the
Eof error that ends the surrounding many1; otherwise the fixed 128-byte
record layout.  The source builds its TtiBlock literal without the
required cct field and takes no CharacterCodeTable argument, so the
file does not compile as written (Rust E0063); following spec section
4.4 the active CharacterCodeTable is taken as an argument and stored in
the record. -/
def parse_tti_block (cct : CharacterCodeTable) (input : List Nat) : PRes TtiBlock :=
  if input = [] then Except.error (NomErr.error (ParseError.NomParsingError "Eof"))
  else
  pbind (nomBeU8 input) (fun i1 sgn =>
  pbind (nomLeU16 i1) (fun i2 sn =>
  pbind (nomBeU8 i2) (fun i3 ebn =>
  pbind (pCs i3) (fun i4 cs =>
  pbind (parse_time i4) (fun i5 tci =>
  pbind (parse_time i5) (fun i6 tco =>
  pbind (nomBeU8 i6) (fun i7 vp =>
  pbind (nomBeU8 i7) (fun i8 jc =>
  pbind (nomBeU8 i8) (fun i9 cf =>
  pbind (nomTake 112 i9) (fun i10 tf =>
  Except.ok (i10,
    { sgn := sgn, sn := sn, ebn := ebn, cs := cs, tci := tci, tco := tco
      vp := vp, jc := jc, cf := cf, tf := tf, cct := cct })))))))))))

/-- The loop of nom many1 after a first success: stop and succeed on a
recoverable error, propagate Incomplete and Failure, guard against a
parser that consumes nothing.  The fuel only bounds the number of
iterations; every successful parse_tti_block consumes 128 bytes, so any
fuel above the input length divided by 128 gives the loop of the
source. -/
def many1TtiFrom (cct : CharacterCodeTable) : Nat → List Nat → List TtiBlock → PRes (List TtiBlock)
  | 0, _, _ => Except.error (NomErr.error ParseError.Unknown)
  | fuel + 1, i, acc =>
    match parse_tti_block cct i with
    | Except.ok (i1, t) =>
      if i1.length = i.length then Except.error (NomErr.error (ParseError.NomParsingError "Many1"))
      else many1TtiFrom cct fuel i1 (acc ++ [t])
    | Except.error (NomErr.error _) => Except.ok (i, acc)
    | Except.error e => Except.error e

/-- nom multi::many1 applied to parse_tti_block: a first recoverable
error is decorated with the Many1 kind (the append of the ParseError
nom impl); a first success enters the loop. -/
def many1Tti (cct : CharacterCodeTable) (i : List Nat) : PRes (List TtiBlock) :=
  match parse_tti_block cct i with
  | Except.error (NomErr.error e) =>
    Except.error (NomErr.error (ParseError.NomParsingError ("Many1:\n" ++ displayParseError e)))
  | Except.error e => Except.error e
  | Except.ok (i1, t) => many1TtiFrom cct (i1.length + 1) i1 [t]

/-- parse_stl (src/parser.rs lines 94 to 97): one GSI block then one or
more TTI blocks; the record parser receives the character code table of
the header (see parse_tti_block). -/
def parse_stl (input : List Nat) : PRes Stl :=
  pbind (parse_gsi_block input) (fun i gsi =>
  pbind (many1Tti gsi.cct i) (fun i2 ttis =>
  Except.ok (i2, { gsi := gsi, ttis := ttis })))

/-- parse_stl_from_slice (src/parser.rs lines 99 to 102): run parse_stl,
discard the remaining input, convert the nom error through the From
impl. -/
def parse_stl_from_slice (input : List Nat) : Except ParseError Stl :=
  match parse_stl input with
  | Except.ok (_, stl) => Except.ok stl
  | Except.error e => Except.error (parseErrorOfNomErr e)

-- Lemmas about the teletext framing codec.

lemma textDecodeChars_nil (cct : CharacterCodeTable) : textDecodeChars cct [] = [] := rfl

lemma getTextLoop_8F (cct : CharacterCodeTable) (rest p : List Nat) (a : List Char) :
    getTextLoop cct (0x8F :: rest) p a = if p = [] then a else a ++ textDecodeChars cct p := by
  cases p <;> rfl

lemma getTextLoop_8A (cct : CharacterCodeTable) (rest p : List Nat) (a : List Char) :
    getTextLoop cct (0x8A :: rest) p a =
      getTextLoop cct rest []
        ((if p = [] then a else a ++ textDecodeChars cct p) ++ [Char.ofNat 13, Char.ofNat 10]) := by
  cases p <;> rfl

lemma getTextLoop_ctrl (cct : CharacterCodeTable) (c : Nat) (rest p : List Nat) (a : List Char)
    (hc : ttiIsControl c = true) (h8f : c ≠ 0x8F) (h8a : c ≠ 0x8A) :
    getTextLoop cct (c :: rest) p a =
      getTextLoop cct rest [] (if p = [] then a else a ++ textDecodeChars cct p) := by
  cases p <;> simp [getTextLoop, hc, h8f, h8a]

lemma getTextLoop_content (cct : CharacterCodeTable) (c : Nat) (rest p : List Nat) (a : List Char)
    (hc : ttiIsControl c = false) :
    getTextLoop cct (c :: rest) p a = getTextLoop cct rest (p ++ [c]) a := by
  simp [getTextLoop, hc]

lemma getTextLoop_append_acc (cct : CharacterCodeTable) (tf : List Nat) :
    ∀ (p : List Nat) (a b : List Char),
      getTextLoop cct tf p (a ++ b) = a ++ getTextLoop cct tf p b := by
  induction tf with
  | nil => intro p a b; rfl
  | cons c rest ih =>
    intro p a b
    by_cases hc : ttiIsControl c
    · by_cases h8f : c = 0x8F
      · subst h8f
        rw [getTextLoop_8F, getTextLoop_8F]
        by_cases hp : p = [] <;> simp [hp, List.append_assoc]
      · by_cases h8a : c = 0x8A
        · subst h8a
          rw [getTextLoop_8A, getTextLoop_8A]
          by_cases hp : p = [] <;> simp [hp, List.append_assoc, ih]
        · rw [getTextLoop_ctrl cct c rest p _ hc h8f h8a,
              getTextLoop_ctrl cct c rest p _ hc h8f h8a]
          by_cases hp : p = [] <;> simp [hp, List.append_assoc, ih]
    · have hc2 : ttiIsControl c = false := by simpa using hc
      rw [getTextLoop_content cct c rest p _ hc2, getTextLoop_content cct c rest p _ hc2, ih]

lemma getTextLoop_acc (cct : CharacterCodeTable) (tf p : List Nat) (a : List Char) :
    getTextLoop cct tf p a = a ++ getTextLoop cct tf p [] := by
  have h := getTextLoop_append_acc cct tf p a []
  simpa using h

lemma getTextLoop_content_run (cct : CharacterCodeTable) (m : List Nat) :
    ∀ (rest p : List Nat) (a : List Char), (∀ b ∈ m, ttiIsControl b = false) →
      getTextLoop cct (m ++ rest) p a = getTextLoop cct rest (p ++ m) a := by
  induction m with
  | nil => intro rest p a _; simp
  | cons c m2 ih =>
    intro rest p a hm
    have hc : ttiIsControl c = false := hm c (by simp)
    rw [List.cons_append, getTextLoop_content cct c (m2 ++ rest) p a hc,
      ih rest (p ++ [c]) a (fun b hb => hm b (by simp [hb]))]
    simp [List.append_assoc]

/-- Decoding a framed run: content bytes, the three trailing control
bytes, then any amount of 0x8F padding, decodes to the run followed by
CR LF. -/
lemma getTextLoop_framed (cct : CharacterCodeTable) (m : List Nat) (k : Nat)
    (hm : ∀ b ∈ m, ttiIsControl b = false) :
    getTextLoop cct (m ++ 0x0A :: 0x0A :: 0x8A :: List.replicate k 0x8F) [] [] =
      textDecodeChars cct m ++ [Char.ofNat 13, Char.ofNat 10] := by
  rw [getTextLoop_content_run cct m (0x0A :: 0x0A :: 0x8A :: List.replicate k 0x8F) [] [] hm]
  have h0A : ttiIsControl 0x0A = true := by decide
  simp only [List.nil_append]
  rw [getTextLoop_ctrl cct 0x0A _ m [] h0A (by decide) (by decide)]
  rw [getTextLoop_ctrl cct 0x0A _ [] _ h0A (by decide) (by decide)]
  rw [getTextLoop_8A]
  simp only [if_pos rfl]
  cases m with
  | nil =>
    simp only [if_pos rfl, textDecodeChars_nil, List.nil_append]
    cases k with
    | zero => rfl
    | succ k2 => rw [List.replicate_succ, getTextLoop_8F]; simp
  | cons x xs =>
    simp only [if_neg (by simp : ¬(x :: xs = [])), List.nil_append]
    cases k with
    | zero => rfl
    | succ k2 => rw [List.replicate_succ, getTextLoop_8F]; simp

lemma getTextLoop_stop_indep (cct : CharacterCodeTable) (l1 : List Nat) :
    ∀ (l2 l3 p : List Nat) (a : List Char), 0x8F ∉ l1 →
      getTextLoop cct (l1 ++ 0x8F :: l2) p a = getTextLoop cct (l1 ++ 0x8F :: l3) p a := by
  induction l1 with
  | nil =>
    intro l2 l3 p a _
    rw [List.nil_append, List.nil_append, getTextLoop_8F, getTextLoop_8F]
  | cons c t ih =>
    intro l2 l3 p a h
    have hnotin : 0x8F ∉ t := fun hh => h (by simp [hh])
    have hc8f : c ≠ 0x8F := fun hh => h (by simp [hh])
    rw [List.cons_append, List.cons_append]
    by_cases hc : ttiIsControl c
    · by_cases h8a : c = 0x8A
      · subst h8a
        rw [getTextLoop_8A, getTextLoop_8A, ih l2 l3 _ _ hnotin]
      · rw [getTextLoop_ctrl cct c _ p a hc hc8f h8a,
          getTextLoop_ctrl cct c _ p a hc hc8f h8a, ih l2 l3 _ _ hnotin]
    · have hc2 : ttiIsControl c = false := by simpa using hc
      rw [getTextLoop_content cct c _ p a hc2, getTextLoop_content cct c _ p a hc2,
        ih l2 l3 _ _ hnotin]

/-- C4: in TtiBlock::get_text, the byte 0x8A flushes the accumulated
content run and appends a CR LF line break, after which decoding
continues on the rest; and the byte 0x8F (here at the first position it
occurs) terminates decoding so that the bytes after it never influence
the result.  Decoding itself is a total function: it never fails on any
byte content. -/
theorem get_text_control_bytes (cct : CharacterCodeTable) (m l1 l2 l3 : List Nat)
    (hm : ∀ b ∈ m, ttiIsControl b = false) (h1 : 0x8F ∉ l1) :
    (decodeTextField cct (m ++ 0x8A :: l2)).data =
      textDecodeChars cct m ++ [Char.ofNat 13, Char.ofNat 10] ++ (decodeTextField cct l2).data ∧
    decodeTextField cct (l1 ++ 0x8F :: l3) = decodeTextField cct (l1 ++ [0x8F]) := by
  constructor
  · show getTextLoop cct (m ++ 0x8A :: l2) [] [] =
      textDecodeChars cct m ++ [Char.ofNat 13, Char.ofNat 10] ++ getTextLoop cct l2 [] []
    rw [getTextLoop_content_run cct m (0x8A :: l2) [] [] hm, List.nil_append,
      getTextLoop_8A, getTextLoop_acc]
    cases m with
    | nil => simp [textDecodeChars_nil]
    | cons x xs => simp [List.append_assoc]
  · show String.mk (getTextLoop cct (l1 ++ 0x8F :: l3) [] []) =
      String.mk (getTextLoop cct (l1 ++ 0x8F :: []) [] [])
    rw [getTextLoop_stop_indep cct l1 l3 [] [] [] h1]

/-- Witness for C4 at concrete inputs. -/
theorem get_text_control_bytes_witness :
    (decodeTextField CharacterCodeTable.Latin ([0x41] ++ 0x8A :: [0x42, 0x8F, 0x99])).data =
      textDecodeChars CharacterCodeTable.Latin [0x41] ++ [Char.ofNat 13, Char.ofNat 10] ++
        (decodeTextField CharacterCodeTable.Latin [0x42, 0x8F, 0x99]).data ∧
    decodeTextField CharacterCodeTable.Latin ([0x43] ++ 0x8F :: [0x00, 0xFF]) =
      decodeTextField CharacterCodeTable.Latin ([0x43] ++ [0x8F]) :=
  get_text_control_bytes CharacterCodeTable.Latin [0x41] [0x43] [0x42, 0x8F, 0x99] [0x00, 0xFF]
    (by decide) (by decide)

lemma getTextLoop_skip_ctrl (cct : CharacterCodeTable) (c : Nat) (rest : List Nat) (a : List Char)
    (hc : ttiIsControl c = true) (h8f : c ≠ 0x8F) (h8a : c ≠ 0x8A) :
    getTextLoop cct (c :: rest) [] a = getTextLoop cct rest [] a := by
  rw [getTextLoop_ctrl cct c rest [] a hc h8f h8a]
  simp

lemma textEncode_content (cct : CharacterCodeTable) (s : String)
    (hrep : ∀ c ∈ s.data, 0x20 ≤ c.toNat ∧ c.toNat ≤ 0x7F) :
    ∀ b ∈ textEncode cct s, ttiIsControl b = false := by
  intro b hb
  obtain ⟨c, hc, hcb⟩ := List.mem_map.mp hb
  obtain ⟨h1, h2⟩ := hrep c hc
  have : b = c.toNat := by
    rw [← hcb, textEncodeChar, if_pos (by omega)]
  subst this
  simp only [ttiIsControl, decide_eq_false_iff_not]
  omega

lemma textDecode_textEncode (cct : CharacterCodeTable) (s : String)
    (hrep : ∀ c ∈ s.data, 0x20 ≤ c.toNat ∧ c.toNat ≤ 0x7F) :
    textDecodeChars cct (textEncode cct s) = s.data := by
  unfold textDecodeChars textEncode
  rw [List.map_map]
  have : ∀ c ∈ s.data, (textDecodeByte ∘ textEncodeChar) c = id c := by
    intro c hc
    obtain ⟨h1, h2⟩ := hrep c hc
    simp only [Function.comp, textEncodeChar, textDecodeByte, if_pos (by omega : c.toNat ≤ 0x7F)]
    simp [Char.ofNat_toNat]
  rw [List.map_congr_left this, List.map_id]

lemma textDecode_textEncode_take (cct : CharacterCodeTable) (s : String) (k : Nat)
    (hrep : ∀ c ∈ s.data, 0x20 ≤ c.toNat ∧ c.toNat ≤ 0x7F) :
    textDecodeChars cct ((textEncode cct s).take k) = s.data.take k := by
  have h := textDecode_textEncode cct s hrep
  unfold textDecodeChars at h ⊢
  rw [List.map_take, h]


/-- C3 (amended): for text drawn from the representable (here ASCII
printable) range, encoding then decoding yields the text followed by a
CR LF pair appended by the 0x8A terminator; the lossless budget is 109
bytes minus the leading control bytes (two, or three with double
height), and longer text is truncated to that budget, decoding to
exactly that byte-budget prefix followed by CR LF. -/
theorem truncation_boundary_amended (cct : CharacterCodeTable) (s : String) (dh : Bool)
    (hrep : ∀ c ∈ s.data, 0x20 ≤ c.toNat ∧ c.toNat ≤ 0x7F) :
    ((textEncode cct s).length ≤ 109 - (if dh then 3 else 2) →
      (decodeTextField cct (encode_text s dh cct)).data =
        s.data ++ [Char.ofNat 13, Char.ofNat 10]) ∧
    (109 - (if dh then 3 else 2) < (textEncode cct s).length →
      (decodeTextField cct (encode_text s dh cct)).data =
        s.data.take (109 - (if dh then 3 else 2)) ++ [Char.ofNat 13, Char.ofNat 10]) := by
  have hcont := textEncode_content cct s hrep
  have hctrl0B : ttiIsControl 0x0B = true := by decide
  have hctrl0D : ttiIsControl 0x0D = true := by decide
  cases dh with
  | false =>
    norm_num
    constructor
    · intro hle
      show getTextLoop cct (encode_text s false cct) [] [] =
        s.data ++ [Char.ofNat 13, Char.ofNat 10]
      unfold encode_text
      simp only [Bool.false_eq_true, if_false, List.nil_append]
      have hlen : (([0x0B, 0x0B] : List Nat) ++ textEncode cct s).length ≤ 109 := by
        simp only [List.length_append, List.length_cons, List.length_nil]
        omega
      rw [List.take_of_length_le hlen]
      simp only [List.cons_append, List.nil_append, List.append_assoc]
      rw [getTextLoop_skip_ctrl cct 0x0B _ [] hctrl0B (by decide) (by decide),
        getTextLoop_skip_ctrl cct 0x0B _ [] hctrl0B (by decide) (by decide),
        getTextLoop_framed cct (textEncode cct s) _ hcont,
        textDecode_textEncode cct s hrep]
    · intro hgt
      show getTextLoop cct (encode_text s false cct) [] [] =
        s.data.take 107 ++ [Char.ofNat 13, Char.ofNat 10]
      unfold encode_text
      simp only [Bool.false_eq_true, if_false, List.nil_append]
      have htake : List.take 109 (([0x0B, 0x0B] : List Nat) ++ textEncode cct s) =
          ([0x0B, 0x0B] : List Nat) ++ (textEncode cct s).take 107 := by
        rw [List.take_append_eq_append_take]
        simp
      rw [htake]
      simp only [List.cons_append, List.nil_append, List.append_assoc]
      rw [getTextLoop_skip_ctrl cct 0x0B _ [] hctrl0B (by decide) (by decide),
        getTextLoop_skip_ctrl cct 0x0B _ [] hctrl0B (by decide) (by decide),
        getTextLoop_framed cct ((textEncode cct s).take 107) _
          (fun b hb => hcont b (List.take_subset _ _ hb)),
        textDecode_textEncode_take cct s 107 hrep]
  | true =>
    norm_num
    constructor
    · intro hle
      show getTextLoop cct (encode_text s true cct) [] [] =
        s.data ++ [Char.ofNat 13, Char.ofNat 10]
      unfold encode_text
      simp only [eq_self_iff_true, if_true]
      have hlen : ((([0x0D] : List Nat) ++ [0x0B, 0x0B]) ++ textEncode cct s).length ≤ 109 := by
        simp only [List.length_append, List.length_cons, List.length_nil]
        omega
      rw [List.take_of_length_le hlen]
      simp only [List.cons_append, List.nil_append, List.append_assoc]
      rw [getTextLoop_skip_ctrl cct 0x0D _ [] hctrl0D (by decide) (by decide),
        getTextLoop_skip_ctrl cct 0x0B _ [] hctrl0B (by decide) (by decide),
        getTextLoop_skip_ctrl cct 0x0B _ [] hctrl0B (by decide) (by decide),
        getTextLoop_framed cct (textEncode cct s) _ hcont,
        textDecode_textEncode cct s hrep]
    · intro hgt
      show getTextLoop cct (encode_text s true cct) [] [] =
        s.data.take 106 ++ [Char.ofNat 13, Char.ofNat 10]
      unfold encode_text
      simp only [eq_self_iff_true, if_true]
      have htake : List.take 109 ((([0x0D] : List Nat) ++ [0x0B, 0x0B]) ++ textEncode cct s) =
          (([0x0D] : List Nat) ++ [0x0B, 0x0B]) ++ (textEncode cct s).take 106 := by
        rw [List.take_append_eq_append_take]
        simp
      rw [htake]
      simp only [List.cons_append, List.nil_append, List.append_assoc]
      rw [getTextLoop_skip_ctrl cct 0x0D _ [] hctrl0D (by decide) (by decide),
        getTextLoop_skip_ctrl cct 0x0B _ [] hctrl0B (by decide) (by decide),
        getTextLoop_skip_ctrl cct 0x0B _ [] hctrl0B (by decide) (by decide),
        getTextLoop_framed cct ((textEncode cct s).take 106) _
          (fun b hb => hcont b (List.take_subset _ _ hb)),
        textDecode_textEncode_take cct s 106 hrep]

/-- A 108-character text used to exhibit the truncation boundary. -/
def s108 : String := String.mk (List.replicate 108 (Char.ofNat 97))

/-- A 120-character text whose encoding exceeds every content budget. -/
def s120 : String := String.mk (List.replicate 120 (Char.ofNat 97))

/-- Counterexample for C3 as stated: with the double-height flag set,
a text of legacy-encoded length 108 (within the claimed 109-byte
lossless boundary) is nevertheless truncated to 106 bytes, and
decoding returns the truncated prefix with a CR LF appended, not the
original text. -/
theorem truncation_boundary_cex :
    (textEncode CharacterCodeTable.Latin s108).length ≤ 109 ∧
    decodeTextField CharacterCodeTable.Latin
      (encode_text s108 true CharacterCodeTable.Latin) ≠ s108 ∧
    (decodeTextField CharacterCodeTable.Latin
      (encode_text s108 true CharacterCodeTable.Latin)).data =
      List.replicate 106 (Char.ofNat 97) ++ [Char.ofNat 13, Char.ofNat 10] :=
  ⟨by decide, by decide, by decide⟩

/-- Witness for C3 (amended) at concrete inputs: a short text encodes
and decodes losslessly up to the appended CR LF, and an overlong text
decodes to the truncated budget prefix plus CR LF. -/
theorem truncation_boundary_witness :
    ((decodeTextField CharacterCodeTable.Latin
        (encode_text "AB" false CharacterCodeTable.Latin)).data =
      "AB".data ++ [Char.ofNat 13, Char.ofNat 10]) ∧
    ((decodeTextField CharacterCodeTable.Latin
        (encode_text s120 false CharacterCodeTable.Latin)).data =
      s120.data.take 107 ++ [Char.ofNat 13, Char.ofNat 10]) :=
  ⟨(truncation_boundary_amended CharacterCodeTable.Latin "AB" false (by decide)).1 (by decide),
   (truncation_boundary_amended CharacterCodeTable.Latin s120 false (by decide)).2 (by decide)⟩

lemma charToNat_ofNat (n : Nat) (h : n < 0xD800) : (Char.ofNat n).toNat = n := by
  unfold Char.ofNat
  rw [dif_pos (Or.inl h)]
  rfl

-- Concrete fixtures used by witnesses and counterexamples.

/-- A plain well-formed header value (the shape GsiBlock::new produces,
with fixed dates), used as a concrete fixture. -/
def gsi0 : GsiBlock :=
  { cpn := CodePageNumber.CPN_850
    dfc := DiskFormatCode.STL25_01
    dsc := DisplayStandardCode.Level1Teletext
    cct := CharacterCodeTable.Latin
    lc := "0F", opt := "", oet := "", tpt := "", tet := "", tn := "", tcd := "", slr := ""
    cd := "240101", rd := "240101", rn := "00"
    tnb := 0, tns := 0, tng := 1, mnc := 40, mnr := 23
    tcs := TimeCodeStatus.IntendedForUse
    tcp := "00000000", tcf := "00000000", tnd := 1, dsn := 1
    co := "", pub_ := "", en := "", ecd := "", _spare := "", uda := "" }

def stl0 : Stl := { gsi := gsi0, ttis := [] }

def time0 : Time := { hours := 0, minutes := 0, seconds := 0, frames := 0 }

def fmt0 : TtiFormat := { jc := 2, vp := 20, dh := false }

/-- C9: on a fresh document with both counters at zero, the first
append produces a record with subtitle number 1 and the second append a
record with subtitle number 2, for any times, text and format options
(the group number of a new record is always 0); each call increments
the block counter and the subtitle counter. -/
theorem add_sub_first_two (stl : Stl) (tci1 tco1 tci2 tco2 : Time) (txt1 txt2 : String)
    (opt1 opt2 : TtiFormat) (h1 : stl.gsi.tnb = 0) (h2 : stl.gsi.tns = 0) :
    ((stl.add_sub tci1 tco1 txt1 opt1).ttis.getLast?.map TtiBlock.sn = some 1) ∧
    (((stl.add_sub tci1 tco1 txt1 opt1).add_sub tci2 tco2 txt2 opt2).ttis.getLast?.map
      TtiBlock.sn = some 2) ∧
    (stl.add_sub tci1 tco1 txt1 opt1).gsi.tnb = 1 ∧
    (stl.add_sub tci1 tco1 txt1 opt1).gsi.tns = 1 ∧
    ((stl.add_sub tci1 tco1 txt1 opt1).add_sub tci2 tco2 txt2 opt2).gsi.tnb = 2 ∧
    ((stl.add_sub tci1 tco1 txt1 opt1).add_sub tci2 tco2 txt2 opt2).gsi.tns = 2 := by
  simp [Stl.add_sub, TtiBlock.new, h1, h2, List.getLast?_concat]

/-- Witness for C9 on a concrete fresh document. -/
theorem add_sub_first_two_witness :
    ((stl0.add_sub time0 time0 "Hi" fmt0).ttis.getLast?.map TtiBlock.sn = some 1) ∧
    (((stl0.add_sub time0 time0 "Hi" fmt0).add_sub time0 time0 "there" fmt0).ttis.getLast?.map
      TtiBlock.sn = some 2) ∧
    (stl0.add_sub time0 time0 "Hi" fmt0).gsi.tnb = 1 ∧
    (stl0.add_sub time0 time0 "Hi" fmt0).gsi.tns = 1 ∧
    ((stl0.add_sub time0 time0 "Hi" fmt0).add_sub time0 time0 "there" fmt0).gsi.tnb = 2 ∧
    ((stl0.add_sub time0 time0 "Hi" fmt0).add_sub time0 time0 "there" fmt0).gsi.tns = 2 :=
  add_sub_first_two stl0 time0 time0 time0 time0 "Hi" "there" fmt0 fmt0 rfl rfl

/-- C10 (amended): while both u16 counters are below their maximum,
append changes exactly the block counter and the subtitle counter (each
by one), leaves every other header field (including the
CharacterCodeTable) unchanged, leaves the existing record sequence
unchanged, and appends exactly one new record, built from the
incremented block counter and the header character code table.  At
65535 the u16 increment of the source overflows instead (wrap in
release builds, panic in debug builds), so the bound is necessary. -/
theorem add_sub_frame_amended (stl : Stl) (tci tco : Time) (txt : String) (opt : TtiFormat)
    (h1 : stl.gsi.tnb < 65535) (h2 : stl.gsi.tns < 65535) :
    (stl.add_sub tci tco txt opt).gsi.tnb = stl.gsi.tnb + 1 ∧
    (stl.add_sub tci tco txt opt).gsi.tns = stl.gsi.tns + 1 ∧
    (stl.add_sub tci tco txt opt).gsi.cpn = stl.gsi.cpn ∧
    (stl.add_sub tci tco txt opt).gsi.dfc = stl.gsi.dfc ∧
    (stl.add_sub tci tco txt opt).gsi.dsc = stl.gsi.dsc ∧
    (stl.add_sub tci tco txt opt).gsi.cct = stl.gsi.cct ∧
    (stl.add_sub tci tco txt opt).gsi.lc = stl.gsi.lc ∧
    (stl.add_sub tci tco txt opt).gsi.opt = stl.gsi.opt ∧
    (stl.add_sub tci tco txt opt).gsi.oet = stl.gsi.oet ∧
    (stl.add_sub tci tco txt opt).gsi.tpt = stl.gsi.tpt ∧
    (stl.add_sub tci tco txt opt).gsi.tet = stl.gsi.tet ∧
    (stl.add_sub tci tco txt opt).gsi.tn = stl.gsi.tn ∧
    (stl.add_sub tci tco txt opt).gsi.tcd = stl.gsi.tcd ∧
    (stl.add_sub tci tco txt opt).gsi.slr = stl.gsi.slr ∧
    (stl.add_sub tci tco txt opt).gsi.cd = stl.gsi.cd ∧
    (stl.add_sub tci tco txt opt).gsi.rd = stl.gsi.rd ∧
    (stl.add_sub tci tco txt opt).gsi.rn = stl.gsi.rn ∧
    (stl.add_sub tci tco txt opt).gsi.tng = stl.gsi.tng ∧
    (stl.add_sub tci tco txt opt).gsi.mnc = stl.gsi.mnc ∧
    (stl.add_sub tci tco txt opt).gsi.mnr = stl.gsi.mnr ∧
    (stl.add_sub tci tco txt opt).gsi.tcs = stl.gsi.tcs ∧
    (stl.add_sub tci tco txt opt).gsi.tcp = stl.gsi.tcp ∧
    (stl.add_sub tci tco txt opt).gsi.tcf = stl.gsi.tcf ∧
    (stl.add_sub tci tco txt opt).gsi.tnd = stl.gsi.tnd ∧
    (stl.add_sub tci tco txt opt).gsi.dsn = stl.gsi.dsn ∧
    (stl.add_sub tci tco txt opt).gsi.co = stl.gsi.co ∧
    (stl.add_sub tci tco txt opt).gsi.pub_ = stl.gsi.pub_ ∧
    (stl.add_sub tci tco txt opt).gsi.en = stl.gsi.en ∧
    (stl.add_sub tci tco txt opt).gsi.ecd = stl.gsi.ecd ∧
    (stl.add_sub tci tco txt opt).gsi._spare = stl.gsi._spare ∧
    (stl.add_sub tci tco txt opt).gsi.uda = stl.gsi.uda ∧
    (stl.add_sub tci tco txt opt).ttis =
      stl.ttis ++ [TtiBlock.new (stl.gsi.tnb + 1) tci tco txt opt stl.gsi.cct] := by
  have hm1 : (stl.gsi.tnb + 1) % 65536 = stl.gsi.tnb + 1 := Nat.mod_eq_of_lt (by omega)
  have hm2 : (stl.gsi.tns + 1) % 65536 = stl.gsi.tns + 1 := Nat.mod_eq_of_lt (by omega)
  simp [Stl.add_sub, hm1, hm2]

/-- Witness for C10 (amended) on a concrete document. -/
theorem add_sub_frame_witness :
    (stl0.add_sub time0 time0 "Hi" fmt0).gsi.tnb = stl0.gsi.tnb + 1 ∧
    (stl0.add_sub time0 time0 "Hi" fmt0).gsi.tns = stl0.gsi.tns + 1 ∧
    (stl0.add_sub time0 time0 "Hi" fmt0).gsi.cpn = stl0.gsi.cpn ∧
    (stl0.add_sub time0 time0 "Hi" fmt0).gsi.dfc = stl0.gsi.dfc ∧
    (stl0.add_sub time0 time0 "Hi" fmt0).gsi.dsc = stl0.gsi.dsc ∧
    (stl0.add_sub time0 time0 "Hi" fmt0).gsi.cct = stl0.gsi.cct ∧
    (stl0.add_sub time0 time0 "Hi" fmt0).gsi.lc = stl0.gsi.lc ∧
    (stl0.add_sub time0 time0 "Hi" fmt0).gsi.opt = stl0.gsi.opt ∧
    (stl0.add_sub time0 time0 "Hi" fmt0).gsi.oet = stl0.gsi.oet ∧
    (stl0.add_sub time0 time0 "Hi" fmt0).gsi.tpt = stl0.gsi.tpt ∧
    (stl0.add_sub time0 time0 "Hi" fmt0).gsi.tet = stl0.gsi.tet ∧
    (stl0.add_sub time0 time0 "Hi" fmt0).gsi.tn = stl0.gsi.tn ∧
    (stl0.add_sub time0 time0 "Hi" fmt0).gsi.tcd = stl0.gsi.tcd ∧
    (stl0.add_sub time0 time0 "Hi" fmt0).gsi.slr = stl0.gsi.slr ∧
    (stl0.add_sub time0 time0 "Hi" fmt0).gsi.cd = stl0.gsi.cd ∧
    (stl0.add_sub time0 time0 "Hi" fmt0).gsi.rd = stl0.gsi.rd ∧
    (stl0.add_sub time0 time0 "Hi" fmt0).gsi.rn = stl0.gsi.rn ∧
    (stl0.add_sub time0 time0 "Hi" fmt0).gsi.tng = stl0.gsi.tng ∧
    (stl0.add_sub time0 time0 "Hi" fmt0).gsi.mnc = stl0.gsi.mnc ∧
    (stl0.add_sub time0 time0 "Hi" fmt0).gsi.mnr = stl0.gsi.mnr ∧
    (stl0.add_sub time0 time0 "Hi" fmt0).gsi.tcs = stl0.gsi.tcs ∧
    (stl0.add_sub time0 time0 "Hi" fmt0).gsi.tcp = stl0.gsi.tcp ∧
    (stl0.add_sub time0 time0 "Hi" fmt0).gsi.tcf = stl0.gsi.tcf ∧
    (stl0.add_sub time0 time0 "Hi" fmt0).gsi.tnd = stl0.gsi.tnd ∧
    (stl0.add_sub time0 time0 "Hi" fmt0).gsi.dsn = stl0.gsi.dsn ∧
    (stl0.add_sub time0 time0 "Hi" fmt0).gsi.co = stl0.gsi.co ∧
    (stl0.add_sub time0 time0 "Hi" fmt0).gsi.pub_ = stl0.gsi.pub_ ∧
    (stl0.add_sub time0 time0 "Hi" fmt0).gsi.en = stl0.gsi.en ∧
    (stl0.add_sub time0 time0 "Hi" fmt0).gsi.ecd = stl0.gsi.ecd ∧
    (stl0.add_sub time0 time0 "Hi" fmt0).gsi._spare = stl0.gsi._spare ∧
    (stl0.add_sub time0 time0 "Hi" fmt0).gsi.uda = stl0.gsi.uda ∧
    (stl0.add_sub time0 time0 "Hi" fmt0).ttis =
      stl0.ttis ++ [TtiBlock.new (stl0.gsi.tnb + 1) time0 time0 "Hi" fmt0 stl0.gsi.cct] :=
  add_sub_frame_amended stl0 time0 time0 "Hi" fmt0 (by decide) (by decide)

/-- A document whose block counter sits at the u16 maximum. -/
def stlMax : Stl := { gsi := { gsi0 with tnb := 65535 }, ttis := [] }

/-- Counterexample for C10 as stated: at a block counter of 65535 the
u16 increment wraps to 0 (and a debug build panics), so the counter is
not incremented by exactly one. -/
theorem add_sub_frame_cex :
    (stlMax.add_sub time0 time0 "Hi" fmt0).gsi.tnb = 0 ∧
    (stlMax.add_sub time0 time0 "Hi" fmt0).gsi.tnb ≠ stlMax.gsi.tnb + 1 :=
  ⟨rfl, by decide⟩

-- Decimal rendering and parsing lemmas.

lemma natDigitsLE_length : ∀ (fuel n k : Nat), n < 10 ^ k → 0 < k →
    (natDigitsLE fuel n).length ≤ k := by
  intro fuel
  induction fuel with
  | zero => intro n k _ _; simp [natDigitsLE]
  | succ f ih =>
    intro n k hn hk
    unfold natDigitsLE
    split_ifs with h10
    · simpa using hk
    · simp only [List.length_cons]
      have hk2 : 2 ≤ k := by
        by_contra hlt
        have hk1 : k = 1 := by omega
        subst hk1
        simp at hn
        omega
      have hdiv : n / 10 < 10 ^ (k - 1) := by
        have hpow : 10 ^ k = 10 ^ (k - 1) * 10 := by
          conv_lhs => rw [show k = (k - 1) + 1 from by omega]
          rw [pow_succ]
        rw [Nat.div_lt_iff_lt_mul (by norm_num)]
        omega
      have := ih (n / 10) (k - 1) hdiv (by omega)
      omega

lemma natDigitsLE_ne_nil (fuel n : Nat) (h : 0 < fuel) : natDigitsLE fuel n ≠ [] := by
  cases fuel with
  | zero => omega
  | succ f =>
    unfold natDigitsLE
    split_ifs <;> simp

lemma natDigitsLE_digits : ∀ (fuel n : Nat), ∀ c ∈ natDigitsLE fuel n,
    48 ≤ c.toNat ∧ c.toNat ≤ 57 := by
  intro fuel
  induction fuel with
  | zero => intro n c hc; simp [natDigitsLE] at hc
  | succ f ih =>
    intro n c hc
    unfold natDigitsLE at hc
    split_ifs at hc with h10
    · simp only [List.mem_singleton] at hc
      subst hc
      rw [charToNat_ofNat (48 + n) (by omega)]
      omega
    · rcases List.mem_cons.mp hc with h | h
      · subst h
        have hlt : n % 10 < 10 := Nat.mod_lt n (by norm_num)
        rw [charToNat_ofNat (48 + n % 10) (by omega)]
        omega
      · exact ih _ c h

/-- The running value of a big-endian digit list. -/
def valFold (a : Nat) (l : List Char) : Nat :=
  l.foldl (fun x c => x * 10 + (c.toNat - 48)) a

lemma valFold_append (a : Nat) (l1 l2 : List Char) :
    valFold a (l1 ++ l2) = valFold (valFold a l1) l2 := by
  simp [valFold, List.foldl_append]

lemma valFold_natDigits : ∀ (fuel n a : Nat), n ≤ fuel →
    valFold a (natDigitsLE fuel n).reverse = a * 10 ^ (natDigitsLE fuel n).length + n := by
  intro fuel
  induction fuel with
  | zero => intro n a h; interval_cases n; simp [natDigitsLE, valFold]
  | succ f ih =>
    intro n a h
    unfold natDigitsLE
    split_ifs with h10
    · simp only [List.reverse_singleton, List.length_singleton, valFold,
        List.foldl_cons, List.foldl_nil, pow_one]
      rw [charToNat_ofNat (48 + n) (by omega)]
      omega
    · have hdivle : n / 10 ≤ f := by
        have := Nat.div_lt_self (show 0 < n by omega) (show 1 < 10 by norm_num)
        omega
      rw [List.reverse_cons, valFold_append, ih (n / 10) a hdivle]
      simp only [List.length_cons, valFold, List.foldl_cons, List.foldl_nil]
      rw [charToNat_ofNat (48 + n % 10) (by have := Nat.mod_lt n (show 0 < 10 by norm_num); omega)]
      have hmod : 48 + n % 10 - 48 = n % 10 := by omega
      rw [hmod, pow_succ]
      have hnm := Nat.div_add_mod n 10
      ring_nf
      omega

lemma valFold_zeros : ∀ (p : Nat), valFold 0 (List.replicate p (Char.ofNat 48)) = 0 := by
  intro p
  induction p with
  | zero => rfl
  | succ q ih =>
    rw [List.replicate_succ]
    show valFold (0 * 10 + ((Char.ofNat 48).toNat - 48)) (List.replicate q (Char.ofNat 48)) = 0
    rw [charToNat_ofNat 48 (by omega)]
    simpa using ih

lemma parseDigitsVal_digits : ∀ (l : List Char) (a : Nat),
    (∀ c ∈ l, 48 ≤ c.toNat ∧ c.toNat ≤ 57) →
    l.foldl
      (fun acc c =>
        match acc, charDigit c with
        | some x, some d => some (x * 10 + d)
        | _, _ => none)
      (some a) = some (valFold a l) := by
  intro l
  induction l with
  | nil => intro a _; simp [valFold]
  | cons c rest ih =>
    intro a hd
    obtain ⟨h1, h2⟩ := hd c (by simp)
    have hcd : charDigit c = some (c.toNat - 48) := by
      simp [charDigit, h1, h2]
    simp only [List.foldl_cons, hcd]
    rw [ih (a * 10 + (c.toNat - 48)) (fun x hx => hd x (by simp [hx]))]
    simp [valFold]

lemma parseDigitsVal_of_digits (l : List Char)
    (hd : ∀ c ∈ l, 48 ≤ c.toNat ∧ c.toNat ≤ 57) :
    parseDigitsVal l = some (valFold 0 l) := by
  unfold parseDigitsVal
  exact parseDigitsVal_digits l 0 hd

lemma natToChars_digits (n : Nat) : ∀ c ∈ natToChars n, 48 ≤ c.toNat ∧ c.toNat ≤ 57 := by
  intro c hc
  exact natDigitsLE_digits (n + 1) n c (List.mem_reverse.mp hc)

lemma natToChars_length_le (n k : Nat) (hn : n < 10 ^ k) (hk : 0 < k) :
    (natToChars n).length ≤ k := by
  unfold natToChars
  rw [List.length_reverse]
  exact natDigitsLE_length (n + 1) n k hn hk

lemma natToChars_ne_nil (n : Nat) : natToChars n ≠ [] := by
  unfold natToChars
  intro h
  exact natDigitsLE_ne_nil (n + 1) n (by omega) (by simpa using h)

lemma valFold_natToChars (n : Nat) : valFold 0 (natToChars n) = n := by
  unfold natToChars
  rw [valFold_natDigits (n + 1) n 0 (by omega)]
  simp

lemma formatNum_data (w n : Nat) :
    (formatNum w n).data = List.replicate (w - (natToChars n).length) (Char.ofNat 48) ++ natToChars n := rfl

lemma formatNum_digits (w n : Nat) : ∀ c ∈ (formatNum w n).data, 48 ≤ c.toNat ∧ c.toNat ≤ 57 := by
  intro c hc
  rw [formatNum_data] at hc
  rcases List.mem_append.mp hc with h | h
  · have := List.eq_of_mem_replicate h
    subst this
    rw [charToNat_ofNat 48 (by omega)]
    omega
  · exact natToChars_digits n c h

lemma formatNum_length (w n : Nat) (hn : n < 10 ^ w) (hw : 0 < w) :
    (formatNum w n).data.length = w := by
  rw [formatNum_data, List.length_append, List.length_replicate]
  have := natToChars_length_le n w hn hw
  omega

lemma parseDigitsVal_formatNum (w n : Nat) : parseDigitsVal (formatNum w n).data = some n := by
  rw [formatNum_data, parseDigitsVal_of_digits _ (by
    intro c hc
    rcases List.mem_append.mp hc with h | h
    · have := List.eq_of_mem_replicate h
      subst this
      rw [charToNat_ofNat 48 (by omega)]
      omega
    · exact natToChars_digits n c h)]
  rw [valFold_append, valFold_zeros, valFold_natToChars]

lemma u16FromStrE_digits (l : List Char) (v : Nat) (hne : l ≠ [])
    (hd : ∀ c ∈ l, 48 ≤ c.toNat ∧ c.toNat ≤ 57)
    (hv : parseDigitsVal l = some v) (hb : v ≤ 65535) :
    u16FromStrE l = Except.ok v := by
  cases l with
  | nil => simp at hne
  | cons c rest =>
    obtain ⟨h1, h2⟩ := hd c (by simp)
    have hcp : ¬(c = Char.ofNat 43) := by
      intro h
      have := congrArg Char.toNat h
      rw [charToNat_ofNat 43 (by omega)] at this
      omega
    show u16Digits (if c = Char.ofNat 43 then rest else c :: rest) = Except.ok v
    rw [if_neg hcp]
    show (match parseDigitsVal (c :: rest) with
      | none => (Except.error "invalid digit found in string" : Except String Nat)
      | some w =>
        if w ≤ 65535 then Except.ok w
        else Except.error "number too large to fit in target type") = Except.ok v
    rw [hv]
    show (if v ≤ 65535 then (Except.ok v : Except String Nat)
      else Except.error "number too large to fit in target type") = Except.ok v
    rw [if_pos hb]

lemma u8FromStrE_digits (l : List Char) (v : Nat) (hne : l ≠ [])
    (hd : ∀ c ∈ l, 48 ≤ c.toNat ∧ c.toNat ≤ 57)
    (hv : parseDigitsVal l = some v) (hb : v ≤ 255) :
    u8FromStrE l = Except.ok v := by
  cases l with
  | nil => simp at hne
  | cons c rest =>
    obtain ⟨h1, h2⟩ := hd c (by simp)
    have hcp : ¬(c = Char.ofNat 43) := by
      intro h
      have := congrArg Char.toNat h
      rw [charToNat_ofNat 43 (by omega)] at this
      omega
    show u8Digits (if c = Char.ofNat 43 then rest else c :: rest) = Except.ok v
    rw [if_neg hcp]
    show (match parseDigitsVal (c :: rest) with
      | none => (Except.error "invalid digit found in string" : Except String Nat)
      | some w =>
        if w ≤ 255 then Except.ok w
        else Except.error "number too large to fit in target type") = Except.ok v
    rw [hv]
    show (if v ≤ 255 then (Except.ok v : Except String Nat)
      else Except.error "number too large to fit in target type") = Except.ok v
    rw [if_pos hb]

-- UTF-8 lemmas for the ASCII range.

lemma utf8EncodeChar_ascii (c : Char) (h : c.toNat < 0x80) : utf8EncodeChar c = [c.toNat] := by
  simp [utf8EncodeChar, h]

lemma flatten_map_ascii (l : List Char) (h : ∀ c ∈ l, c.toNat < 0x80) :
    (l.map utf8EncodeChar).flatten = l.map Char.toNat := by
  induction l with
  | nil => rfl
  | cons c rest ih =>
    simp only [List.map_cons, List.flatten_cons, utf8EncodeChar_ascii c (h c (by simp))]
    rw [ih (fun x hx => h x (by simp [hx]))]
    rfl

lemma utf8Encode_ascii (s : String) (h : ∀ c ∈ s.data, c.toNat < 0x80) :
    utf8Encode s = s.data.map Char.toNat :=
  flatten_map_ascii s.data h

lemma utf8Encode_ascii_length (s : String) (h : ∀ c ∈ s.data, c.toNat < 0x80) :
    (utf8Encode s).length = s.data.length := by
  rw [utf8Encode_ascii s h, List.length_map]

-- GSI serialization layout (C8).

/-- A field body padded with spaces to its fixed width. -/
def padField (bs : List Nat) (w : Nat) : List Nat :=
  bs ++ List.replicate (w - bs.length) 0x20

lemma padField_length (bs : List Nat) (w : Nat) (h : bs.length ≤ w) :
    (padField bs w).length = w := by
  simp only [padField, List.length_append, List.length_replicate]
  omega

lemma push_string_fits (s : String) (len : Nat) (h : (utf8Encode s).length ≤ len)
    (v : List Nat) : push_string v s len = some (v ++ padField (utf8Encode s) len) := by
  simp [push_string, padField, h, List.append_assoc]

lemma formatNum_utf8_length (w n : Nat) (hn : n < 10 ^ w) (hw : 0 < w) :
    (utf8Encode (formatNum w n)).length = w := by
  rw [utf8Encode_ascii_length _ (fun c hc => by have := formatNum_digits w n c hc; omega)]
  exact formatNum_length w n hn hw

/-- The byte layout of a serialized GSI block: the four enum fields,
then every free-text field space-padded to its width and every counter
zero-padded to its digit width, in file order. -/
def gsiLayout (g : GsiBlock) : List Nat :=
  g.cpn.serialize ++ g.dfc.serialize ++ [g.dsc.serialize] ++ g.cct.serialize ++
  padField (utf8Encode g.lc) 2 ++ padField (utf8Encode g.opt) 32 ++
  padField (utf8Encode g.oet) 32 ++ padField (utf8Encode g.tpt) 32 ++
  padField (utf8Encode g.tet) 32 ++ padField (utf8Encode g.tn) 32 ++
  padField (utf8Encode g.tcd) 32 ++ padField (utf8Encode g.slr) 16 ++
  padField (utf8Encode g.cd) 6 ++ padField (utf8Encode g.rd) 6 ++
  padField (utf8Encode g.rn) 2 ++
  padField (utf8Encode (formatNum 5 g.tnb)) 5 ++ padField (utf8Encode (formatNum 5 g.tns)) 5 ++
  padField (utf8Encode (formatNum 3 g.tng)) 3 ++ padField (utf8Encode (formatNum 2 g.mnc)) 2 ++
  padField (utf8Encode (formatNum 2 g.mnr)) 2 ++ [g.tcs.serialize] ++
  padField (utf8Encode g.tcp) 8 ++ padField (utf8Encode g.tcf) 8 ++
  padField (utf8Encode (formatNum 1 g.tnd)) 1 ++ padField (utf8Encode (formatNum 1 g.dsn)) 1 ++
  padField (utf8Encode g.co) 3 ++ padField (utf8Encode g.pub_) 32 ++
  padField (utf8Encode g.en) 32 ++ padField (utf8Encode g.ecd) 32 ++
  padField (utf8Encode g._spare) 75 ++ padField (utf8Encode g.uda) 576

/-- Every free-text field of the header fits its fixed byte width. -/
def gsiStringFits (g : GsiBlock) : Prop :=
  ∀ p ∈ [(g.lc, 2), (g.opt, 32), (g.oet, 32), (g.tpt, 32), (g.tet, 32), (g.tn, 32),
         (g.tcd, 32), (g.slr, 16), (g.cd, 6), (g.rd, 6), (g.rn, 2), (g.tcp, 8), (g.tcf, 8),
         (g.co, 3), (g.pub_, 32), (g.en, 32), (g.ecd, 32), (g._spare, 75), (g.uda, 576)],
    (utf8Encode (Prod.fst p)).length ≤ Prod.snd p

instance (g : GsiBlock) : Decidable (gsiStringFits g) := by
  unfold gsiStringFits
  infer_instance

/-- Core serialization-layout fact: a header whose free-text fields fit
their widths and whose counters fit their digit widths serializes to
exactly the 1024-byte gsiLayout. -/
lemma gsiSerializeCore (g : GsiBlock)
    (hfit : gsiStringFits g)
    (htnb : g.tnb ≤ 65535) (htns : g.tns ≤ 65535) (htng : g.tng ≤ 999)
    (hmnc : g.mnc ≤ 99) (hmnr : g.mnr ≤ 99) (htnd : g.tnd ≤ 9) (hdsn : g.dsn ≤ 9) :
    GsiBlock.serialize g = some (gsiLayout g) ∧ (gsiLayout g).length = 1024 := by
  have h01 : (utf8Encode g.lc).length ≤ 2 := hfit (g.lc, 2) (by simp)
  have h02 : (utf8Encode g.opt).length ≤ 32 := hfit (g.opt, 32) (by simp)
  have h03 : (utf8Encode g.oet).length ≤ 32 := hfit (g.oet, 32) (by simp)
  have h04 : (utf8Encode g.tpt).length ≤ 32 := hfit (g.tpt, 32) (by simp)
  have h05 : (utf8Encode g.tet).length ≤ 32 := hfit (g.tet, 32) (by simp)
  have h06 : (utf8Encode g.tn).length ≤ 32 := hfit (g.tn, 32) (by simp)
  have h07 : (utf8Encode g.tcd).length ≤ 32 := hfit (g.tcd, 32) (by simp)
  have h08 : (utf8Encode g.slr).length ≤ 16 := hfit (g.slr, 16) (by simp)
  have h09 : (utf8Encode g.cd).length ≤ 6 := hfit (g.cd, 6) (by simp)
  have h10 : (utf8Encode g.rd).length ≤ 6 := hfit (g.rd, 6) (by simp)
  have h11 : (utf8Encode g.rn).length ≤ 2 := hfit (g.rn, 2) (by simp)
  have h12 : (utf8Encode g.tcp).length ≤ 8 := hfit (g.tcp, 8) (by simp)
  have h13 : (utf8Encode g.tcf).length ≤ 8 := hfit (g.tcf, 8) (by simp)
  have h14 : (utf8Encode g.co).length ≤ 3 := hfit (g.co, 3) (by simp)
  have h15 : (utf8Encode g.pub_).length ≤ 32 := hfit (g.pub_, 32) (by simp)
  have h16 : (utf8Encode g.en).length ≤ 32 := hfit (g.en, 32) (by simp)
  have h17 : (utf8Encode g.ecd).length ≤ 32 := hfit (g.ecd, 32) (by simp)
  have h18 : (utf8Encode g._spare).length ≤ 75 := hfit (g._spare, 75) (by simp)
  have h19 : (utf8Encode g.uda).length ≤ 576 := hfit (g.uda, 576) (by simp)
  have hn1 : (utf8Encode (formatNum 5 g.tnb)).length ≤ 5 :=
    le_of_eq (formatNum_utf8_length 5 g.tnb (by omega) (by omega))
  have hn2 : (utf8Encode (formatNum 5 g.tns)).length ≤ 5 :=
    le_of_eq (formatNum_utf8_length 5 g.tns (by omega) (by omega))
  have hn3 : (utf8Encode (formatNum 3 g.tng)).length ≤ 3 :=
    le_of_eq (formatNum_utf8_length 3 g.tng (by omega) (by omega))
  have hn4 : (utf8Encode (formatNum 2 g.mnc)).length ≤ 2 :=
    le_of_eq (formatNum_utf8_length 2 g.mnc (by omega) (by omega))
  have hn5 : (utf8Encode (formatNum 2 g.mnr)).length ≤ 2 :=
    le_of_eq (formatNum_utf8_length 2 g.mnr (by omega) (by omega))
  have hn6 : (utf8Encode (formatNum 1 g.tnd)).length ≤ 1 :=
    le_of_eq (formatNum_utf8_length 1 g.tnd (by omega) (by omega))
  have hn7 : (utf8Encode (formatNum 1 g.dsn)).length ≤ 1 :=
    le_of_eq (formatNum_utf8_length 1 g.dsn (by omega) (by omega))
  have e1 : g.cpn.serialize.length = 3 := by cases g.cpn <;> rfl
  have e2 : g.dfc.serialize.length = 8 := by cases g.dfc <;> rfl
  have e3 : g.cct.serialize.length = 2 := by cases g.cct <;> rfl
  constructor
  · unfold GsiBlock.serialize
    simp only [push_string_fits g.lc 2 h01, push_string_fits g.opt 32 h02,
      push_string_fits g.oet 32 h03, push_string_fits g.tpt 32 h04,
      push_string_fits g.tet 32 h05, push_string_fits g.tn 32 h06,
      push_string_fits g.tcd 32 h07, push_string_fits g.slr 16 h08,
      push_string_fits g.cd 6 h09, push_string_fits g.rd 6 h10,
      push_string_fits g.rn 2 h11, push_string_fits (formatNum 5 g.tnb) 5 hn1,
      push_string_fits (formatNum 5 g.tns) 5 hn2, push_string_fits (formatNum 3 g.tng) 3 hn3,
      push_string_fits (formatNum 2 g.mnc) 2 hn4, push_string_fits (formatNum 2 g.mnr) 2 hn5,
      push_string_fits g.tcp 8 h12, push_string_fits g.tcf 8 h13,
      push_string_fits (formatNum 1 g.tnd) 1 hn6, push_string_fits (formatNum 1 g.dsn) 1 hn7,
      push_string_fits g.co 3 h14, push_string_fits g.pub_ 32 h15,
      push_string_fits g.en 32 h16, push_string_fits g.ecd 32 h17,
      push_string_fits g._spare 75 h18, push_string_fits g.uda 576 h19, obind]
    simp [gsiLayout, List.append_assoc]
  · simp only [gsiLayout, List.length_append, List.length_cons, List.length_nil,
      e1, e2, e3,
      padField_length (utf8Encode g.lc) 2 h01, padField_length (utf8Encode g.opt) 32 h02,
      padField_length (utf8Encode g.oet) 32 h03, padField_length (utf8Encode g.tpt) 32 h04,
      padField_length (utf8Encode g.tet) 32 h05, padField_length (utf8Encode g.tn) 32 h06,
      padField_length (utf8Encode g.tcd) 32 h07, padField_length (utf8Encode g.slr) 16 h08,
      padField_length (utf8Encode g.cd) 6 h09, padField_length (utf8Encode g.rd) 6 h10,
      padField_length (utf8Encode g.rn) 2 h11,
      padField_length (utf8Encode (formatNum 5 g.tnb)) 5 hn1,
      padField_length (utf8Encode (formatNum 5 g.tns)) 5 hn2,
      padField_length (utf8Encode (formatNum 3 g.tng)) 3 hn3,
      padField_length (utf8Encode (formatNum 2 g.mnc)) 2 hn4,
      padField_length (utf8Encode (formatNum 2 g.mnr)) 2 hn5,
      padField_length (utf8Encode g.tcp) 8 h12, padField_length (utf8Encode g.tcf) 8 h13,
      padField_length (utf8Encode (formatNum 1 g.tnd)) 1 hn6,
      padField_length (utf8Encode (formatNum 1 g.dsn)) 1 hn7,
      padField_length (utf8Encode g.co) 3 h14, padField_length (utf8Encode g.pub_) 32 h15,
      padField_length (utf8Encode g.en) 32 h16, padField_length (utf8Encode g.ecd) 32 h17,
      padField_length (utf8Encode g._spare) 75 h18, padField_length (utf8Encode g.uda) 576 h19]

/-- C8 (amended): for every header whose free-text fields fit their
widths and whose counters fit their digit widths (the block and
subtitle counters always do as u16 values; the group counter needs at
most three digits, the column and row maxima two, the disk counts one),
serialization succeeds, produces exactly 1024 bytes, space-pads every
free-text field to its width and renders every counter as fixed-width
zero-padded decimal.  Counters beyond their digit width make the
unchecked padding subtraction of the source panic, so those bounds are
necessary. -/
theorem gsi_serialize_layout_amended (g : GsiBlock)
    (hfit : gsiStringFits g)
    (htnb : g.tnb ≤ 65535) (htns : g.tns ≤ 65535) (htng : g.tng ≤ 999)
    (hmnc : g.mnc ≤ 99) (hmnr : g.mnr ≤ 99) (htnd : g.tnd ≤ 9) (hdsn : g.dsn ≤ 9) :
    GsiBlock.serialize g = some (gsiLayout g) ∧ (gsiLayout g).length = 1024 :=
  gsiSerializeCore g hfit htnb htns htng hmnc hmnr htnd hdsn

/-- Witness for C8 (amended) on a concrete header. -/
theorem gsi_serialize_layout_witness :
    GsiBlock.serialize gsi0 = some (gsiLayout gsi0) ∧ (gsiLayout gsi0).length = 1024 :=
  gsi_serialize_layout_amended gsi0 (by decide) (by decide) (by decide) (by decide)
    (by decide) (by decide) (by decide) (by decide)

/-- A header whose free-text fields all fit but whose one-digit disk
count field holds 10. -/
def gsiBad : GsiBlock := { gsi0 with tnd := 10 }

/-- Counterexample for C8 as stated: a header whose free-text string
fields all fit their widths, but whose serialization is not a 1024-byte
buffer: the two-digit rendering of the disk count 10 overflows its
one-byte field and the unchecked padding subtraction panics (modelled
as none). -/
theorem gsi_serialize_layout_cex :
    gsiStringFits gsiBad ∧ GsiBlock.serialize gsiBad = none :=
  ⟨by decide, by decide⟩

-- Parser combinator lemmas.

@[simp] lemma pbind_ok_eq {α β : Type} (i : List Nat) (a : α) (f : List Nat → α → PRes β) :
    pbind (Except.ok (i, a)) f = f i a := rfl

@[simp] lemma pbind_err_eq {α β : Type} (e : NomErr) (f : List Nat → α → PRes β) :
    pbind (Except.error e : PRes α) f = Except.error e := rfl

@[simp] lemma ebind_ok_eq {α β : Type} (a : α) (f : α → PRes β) :
    ebind (Except.ok a : Except ParseError α) f = f a := rfl

@[simp] lemma ebind_err_eq {α β : Type} (e : ParseError) (f : α → PRes β) :
    ebind (Except.error e : Except ParseError α) f = Except.error (NomErr.error e) := rfl

lemma pbind_ok {α β : Type} {x : PRes α} {f : List Nat → α → PRes β} {v : List Nat × β}
    (h : pbind x f = Except.ok v) : ∃ i a, x = Except.ok (i, a) ∧ f i a = Except.ok v := by
  cases x with
  | error e => simp [pbind] at h
  | ok p => exact ⟨p.1, p.2, rfl, h⟩

lemma ebind_ok {α β : Type} {x : Except ParseError α} {f : α → PRes β} {v : List Nat × β}
    (h : ebind x f = Except.ok v) : ∃ a, x = Except.ok a ∧ f a = Except.ok v := by
  cases x with
  | error e => simp [ebind] at h
  | ok a => exact ⟨a, rfl, h⟩

lemma nomBeU8_ok_inv {i i2 : List Nat} {b : Nat} (h : nomBeU8 i = Except.ok (i2, b)) :
    i = b :: i2 := by
  cases i with
  | nil => simp [nomBeU8] at h
  | cons x rest =>
    simp only [nomBeU8, Except.ok.injEq, Prod.mk.injEq] at h
    rw [h.1, h.2]

lemma nomLeU16_ok_inv {i i2 : List Nat} {v : Nat} (h : nomLeU16 i = Except.ok (i2, v)) :
    ∃ a b, i = a :: b :: i2 ∧ v = a + 256 * b := by
  cases i with
  | nil => simp [nomLeU16] at h
  | cons a rest =>
    cases rest with
    | nil => simp [nomLeU16] at h
    | cons b rest2 =>
      simp only [nomLeU16, Except.ok.injEq, Prod.mk.injEq] at h
      exact ⟨a, b, by rw [h.1], h.2.symm⟩

lemma nomTake_ok_inv {n : Nat} {i i2 l : List Nat} (h : nomTake n i = Except.ok (i2, l)) :
    i = l ++ i2 ∧ l.length = n := by
  unfold nomTake at h
  split_ifs at h with hle
  simp only [Except.ok.injEq, Prod.mk.injEq] at h
  constructor
  · rw [← h.1, ← h.2, List.take_append_drop]
  · rw [← h.2, List.length_take]
    omega

lemma parse_time_ok_inv {i i2 : List Nat} {t : Time} (h : parse_time i = Except.ok (i2, t)) :
    i = t.hours :: t.minutes :: t.seconds :: t.frames :: i2 := by
  unfold parse_time at h
  cases i with
  | nil => simp at h
  | cons x1 r1 =>
    cases r1 with
    | nil => simp at h
    | cons x2 r2 =>
      cases r2 with
      | nil => simp at h
      | cons x3 r3 =>
        cases r3 with
        | nil => simp at h
        | cons x4 r4 =>
          simp only [Except.ok.injEq, Prod.mk.injEq] at h
          obtain ⟨h1, h2⟩ := h
          rw [h1, ← h2]

lemma mapError_ok_inv {β : Type} {x : Except ParseError β} {v : β}
    (h : x.mapError displayParseError = Except.ok v) : x = Except.ok v := by
  cases x with
  | error e => simp [Except.mapError] at h
  | ok b => simpa [Except.mapError] using h

lemma mapResS_ok_inv {α β : Type} {p : PRes α} {f : α → Except String β} {i2 : List Nat} {v : β}
    (h : mapResS p f = Except.ok (i2, v)) : ∃ a, p = Except.ok (i2, a) ∧ f a = Except.ok v := by
  cases hp : p with
  | error e => rw [hp] at h; simp [mapResS] at h
  | ok q =>
    obtain ⟨qi, qa⟩ := q
    rw [hp] at h
    cases hf : f qa with
    | error msg => simp [mapResS, hf] at h
    | ok b =>
      simp only [mapResS, hf, Except.ok.injEq, Prod.mk.injEq] at h
      exact ⟨qa, by rw [h.1], by rw [hf, h.2]⟩

lemma mapResP_ok_inv {α β : Type} {p : PRes α} {f : α → Except ParseError β} {i2 : List Nat} {v : β}
    (h : mapResP p f = Except.ok (i2, v)) : ∃ a, p = Except.ok (i2, a) ∧ f a = Except.ok v := by
  obtain ⟨a, hp, hf⟩ := mapResS_ok_inv h
  exact ⟨a, hp, mapError_ok_inv hf⟩

/-- Full inversion of a successful record parse: the 128 consumed bytes
in terms of the record fields. -/
lemma parse_tti_inv {cct : CharacterCodeTable} {i r : List Nat} {t : TtiBlock}
    (h : parse_tti_block cct i = Except.ok (r, t)) :
    ∃ a b cb,
      i = t.sgn :: a :: b :: t.ebn :: cb :: t.tci.hours :: t.tci.minutes :: t.tci.seconds ::
        t.tci.frames :: t.tco.hours :: t.tco.minutes :: t.tco.seconds :: t.tco.frames ::
        t.vp :: t.jc :: t.cf :: (t.tf ++ r) ∧
      t.sn = a + 256 * b ∧ CumulativeStatus.parse cb = Except.ok t.cs ∧
      t.tf.length = 112 ∧ t.cct = cct := by
  unfold parse_tti_block at h
  split_ifs at h with hnil
  obtain ⟨i1, sgn, h1, h⟩ := pbind_ok h
  obtain ⟨i2, sn, h2, h⟩ := pbind_ok h
  obtain ⟨i3, ebn, h3, h⟩ := pbind_ok h
  obtain ⟨i4, cs, h4, h⟩ := pbind_ok h
  obtain ⟨i5, tci, h5, h⟩ := pbind_ok h
  obtain ⟨i6, tco, h6, h⟩ := pbind_ok h
  obtain ⟨i7, vp, h7, h⟩ := pbind_ok h
  obtain ⟨i8, jc, h8, h⟩ := pbind_ok h
  obtain ⟨i9, cf, h9, h⟩ := pbind_ok h
  obtain ⟨i10, tf, h10, h⟩ := pbind_ok h
  simp only [Except.ok.injEq, Prod.mk.injEq] at h
  obtain ⟨hr, ht⟩ := h
  subst hr
  obtain ⟨a, b, hi2, hsn⟩ := nomLeU16_ok_inv h2
  obtain ⟨csb, h4p, h4c⟩ := mapResP_ok_inv h4
  obtain ⟨hi10, hlen⟩ := nomTake_ok_inv h10
  refine ⟨a, b, csb, ?_, ?_, ?_, ?_, ?_⟩
  · rw [nomBeU8_ok_inv h1, hi2, nomBeU8_ok_inv h3, nomBeU8_ok_inv h4p,
      parse_time_ok_inv h5, parse_time_ok_inv h6, nomBeU8_ok_inv h7,
      nomBeU8_ok_inv h8, nomBeU8_ok_inv h9, hi10, ← ht]
  · rw [← ht, hsn]
  · rw [← ht]
    exact h4c
  · rw [← ht]
    exact hlen
  · rw [← ht]

/-- C7: the record parser (as the spec specifies it; the source literal
omits the required cct field and does not compile, see parse_tti_block)
takes the active CharacterCodeTable and every record it produces
carries a copy of it. -/
theorem parse_tti_carries_cct (cct : CharacterCodeTable) (i r : List Nat) (t : TtiBlock)
    (h : parse_tti_block cct i = Except.ok (r, t)) : t.cct = cct := by
  obtain ⟨_, _, _, _, _, _, _, hcct⟩ := parse_tti_inv h
  exact hcct

-- Concrete byte fixtures.

def asciiBytes (s : String) : List Nat := s.data.map Char.toNat

/-- A valid 1024-byte GSI header: code page 850, STL25.01, teletext
level 1, Latin table, space-filled free text, counters 1/1/1, and
all-space user area. -/
def hdrBytes : List Nat :=
  asciiBytes "850" ++ asciiBytes "STL25.01" ++ [0x31] ++ asciiBytes "00" ++
  asciiBytes "0F" ++ List.replicate 222 0x20 ++
  asciiBytes "00001" ++ asciiBytes "00001" ++ asciiBytes "001" ++
  asciiBytes "40" ++ asciiBytes "23" ++ [0x31] ++
  asciiBytes "00000000" ++ asciiBytes "00000000" ++ asciiBytes "1" ++ asciiBytes "1" ++
  List.replicate 750 0x20

/-- A single valid 128-byte TTI record: subtitle 1, one second long,
empty teletext text field (all fill bytes after the terminator). -/
def tti0Bytes : List Nat :=
  [0, 1, 0, 0xFF, 0] ++ [0, 0, 0, 0] ++ [0, 0, 1, 0] ++ [20, 2, 0] ++
  [0x0B, 0x0B, 0x0A, 0x0A, 0x8A] ++ List.replicate 107 0x8F

-- The many1 loop.

lemma many1TtiFrom_extends (cct : CharacterCodeTable) :
    ∀ (fuel : Nat) (i : List Nat) (acc : List TtiBlock) (r : List Nat) (ts : List TtiBlock),
      many1TtiFrom cct fuel i acc = Except.ok (r, ts) → ∃ extra, ts = acc ++ extra := by
  intro fuel
  induction fuel with
  | zero => intro i acc r ts h; simp [many1TtiFrom] at h
  | succ f ih =>
    intro i acc r ts h
    unfold many1TtiFrom at h
    cases hp : parse_tti_block cct i with
    | ok p =>
      obtain ⟨i1, t⟩ := p
      rw [hp] at h
      simp only at h
      split_ifs at h with hguard
      obtain ⟨extra, hext⟩ := ih i1 (acc ++ [t]) r ts h
      exact ⟨[t] ++ extra, by rw [hext, List.append_assoc]⟩
    | error e =>
      rw [hp] at h
      cases e with
      | error pe =>
        simp only [Except.ok.injEq, Prod.mk.injEq] at h
        exact ⟨[], by rw [← h.2, List.append_nil]⟩
      | incomplete => simp at h
      | failure pe => simp at h

lemma many1Tti_ne_nil {cct : CharacterCodeTable} {i r : List Nat} {ts : List TtiBlock}
    (h : many1Tti cct i = Except.ok (r, ts)) : ts ≠ [] := by
  unfold many1Tti at h
  cases hp : parse_tti_block cct i with
  | ok p =>
    obtain ⟨i1, t⟩ := p
    rw [hp] at h
    obtain ⟨extra, hext⟩ := many1TtiFrom_extends cct (i1.length + 1) i1 [t] r ts h
    rw [hext]
    simp
  | error e =>
    rw [hp] at h
    cases e <;> simp at h

/-- C6: a buffer that is exactly a valid header (the record area empty)
fails to parse, and every successfully parsed document has at least one
record. -/
theorem parse_requires_record :
    (∀ (bs : List Nat) (g : GsiBlock), parse_gsi_block bs = Except.ok ([], g) →
      ∃ e, parse_stl_from_slice bs = Except.error e) ∧
    (∀ (bs : List Nat) (stl : Stl), parse_stl_from_slice bs = Except.ok stl → stl.ttis ≠ []) := by
  constructor
  · intro bs g h
    unfold parse_stl_from_slice parse_stl
    rw [h]
    exact ⟨_, rfl⟩
  · intro bs stl h
    unfold parse_stl_from_slice at h
    cases hps : parse_stl bs with
    | error e => rw [hps] at h; simp at h
    | ok p =>
      rw [hps] at h
      simp only [Except.ok.injEq] at h
      obtain ⟨i0, gsi, h1, h2⟩ := pbind_ok hps
      obtain ⟨i1, ttis, h3, h4⟩ := pbind_ok h2
      injection h4 with h4
      rw [← h, ← h4]
      exact many1Tti_ne_nil h3

/-- The header parsed from hdrBytes (gsi0 is an unreachable fallback). -/
def gHdr : GsiBlock :=
  match parse_gsi_block hdrBytes with
  | Except.ok (_, g) => g
  | Except.error _ => gsi0

def stlBytes : List Nat := hdrBytes ++ tti0Bytes

/-- The document parsed from stlBytes (stl0 is an unreachable fallback). -/
def stlParsed : Stl :=
  match parse_stl_from_slice stlBytes with
  | Except.ok stl => stl
  | Except.error _ => stl0

/-- Witness for C6: the valid header alone fails to parse, and the
concrete parsed one-record document has a non-empty record list. -/
theorem parse_requires_record_witness :
    (∃ e, parse_stl_from_slice hdrBytes = Except.error e) ∧ stlParsed.ttis ≠ [] :=
  ⟨parse_requires_record.1 hdrBytes gHdr rfl,
   parse_requires_record.2 stlBytes stlParsed rfl⟩

/-- The record parsed from tti0Bytes (the fallback is unreachable). -/
def ttiParsed : TtiBlock :=
  match parse_tti_block CharacterCodeTable.Latin tti0Bytes with
  | Except.ok (_, t) => t
  | Except.error _ => TtiBlock.new 1 time0 time0 "" fmt0 CharacterCodeTable.Latin

/-- Witness for C7 on a concrete 128-byte record. -/
theorem parse_tti_carries_cct_witness : ttiParsed.cct = CharacterCodeTable.Latin :=
  parse_tti_carries_cct CharacterCodeTable.Latin tti0Bytes [] ttiParsed rfl

-- Forward computation lemmas for the parser.

lemma nomTake_exact (l r : List Nat) (n : Nat) (h : l.length = n) :
    nomTake n (l ++ r) = Except.ok (r, l) := by
  subst h
  unfold nomTake
  rw [if_pos (by rw [List.length_append]; omega), List.take_left, List.drop_left]

lemma utf8DecodeF_ascii : ∀ (l : List Nat) (fuel : Nat), (∀ b ∈ l, b < 0x80) →
    l.length ≤ fuel → utf8DecodeF fuel l = some (l.map Char.ofNat) := by
  intro l
  induction l with
  | nil => intro fuel _ _; cases fuel <;> rfl
  | cons b rest ih =>
    intro fuel h hfuel
    cases fuel with
    | zero => simp at hfuel
    | succ f =>
      show (if b < 0x80 then (utf8DecodeF f rest).map (fun cs => Char.ofNat b :: cs)
        else _) = _
      rw [if_pos (h b (by simp)),
        ih f (fun x hx => h x (by simp [hx])) (by simp at hfuel; omega)]
      rfl

lemma utf8Decode_ascii (l : List Nat) (h : ∀ b ∈ l, b < 0x80) :
    utf8Decode l = some (l.map Char.ofNat) :=
  utf8DecodeF_ascii l l.length h (le_refl _)

lemma nomTakeStr_fwd {n : Nat} (l r : List Nat) (hlen : l.length = n)
    (hascii : ∀ b ∈ l, b < 0x80) :
    nomTakeStr n (l ++ r) = Except.ok (r, l.map Char.ofNat) := by
  unfold nomTakeStr
  rw [nomTake_exact l r n hlen]
  show (match utf8Decode l with
    | some cs => Except.ok (r, cs)
    | none => Except.error (NomErr.error (ParseError.NomParsingError "Fail"))) =
      Except.ok (r, l.map Char.ofNat)
  rw [utf8Decode_ascii l hascii]

lemma mapResS_fwd {α β : Type} {p : PRes α} {i : List Nat} {a : α} {f : α → Except String β}
    {b : β} (h1 : p = Except.ok (i, a)) (h2 : f a = Except.ok b) :
    mapResS p f = Except.ok (i, b) := by
  rw [h1]
  simp [mapResS, h2]

lemma mapResP_fwd {α β : Type} {p : PRes α} {i : List Nat} {a : α} {f : α → Except ParseError β}
    {b : β} (h1 : p = Except.ok (i, a)) (h2 : f a = Except.ok b) :
    mapResP p f = Except.ok (i, b) := by
  unfold mapResP
  exact mapResS_fwd h1 (by rw [h2]; rfl)

lemma pTakeU16Str_3digits (d1 d2 d3 : Nat) (r : List Nat)
    (h1 : 48 ≤ d1 ∧ d1 ≤ 57) (h2 : 48 ≤ d2 ∧ d2 ≤ 57) (h3 : 48 ≤ d3 ∧ d3 ≤ 57) :
    pTakeU16Str 3 (d1 :: d2 :: d3 :: r) =
      Except.ok (r, (d1 - 48) * 100 + (d2 - 48) * 10 + (d3 - 48)) := by
  have hts : nomTakeStr 3 (d1 :: d2 :: d3 :: r) =
      Except.ok (r, [Char.ofNat d1, Char.ofNat d2, Char.ofNat d3]) := by
    have hfw := nomTakeStr_fwd [d1, d2, d3] r (by rfl)
      (by intro b hb; simp at hb; rcases hb with h | h | h <;> omega)
    rw [show ([d1, d2, d3] : List Nat) ++ r = d1 :: d2 :: d3 :: r from rfl] at hfw
    simp only [List.map_cons, List.map_nil] at hfw
    exact hfw
  have hdig : ∀ c ∈ [Char.ofNat d1, Char.ofNat d2, Char.ofNat d3],
      48 ≤ c.toNat ∧ c.toNat ≤ 57 := by
    intro c hc
    simp only [List.mem_cons, List.not_mem_nil, or_false] at hc
    rcases hc with h | h | h <;> subst h <;>
      rw [charToNat_ofNat _ (by omega)] <;> omega
  have hval : parseDigitsVal [Char.ofNat d1, Char.ofNat d2, Char.ofNat d3] =
      some ((d1 - 48) * 100 + (d2 - 48) * 10 + (d3 - 48)) := by
    rw [parseDigitsVal_of_digits _ hdig]
    simp only [valFold, List.foldl_cons, List.foldl_nil]
    rw [charToNat_ofNat d1 (by omega), charToNat_ofNat d2 (by omega),
      charToNat_ofNat d3 (by omega)]
    ring_nf
  unfold pTakeU16Str
  exact mapResS_fwd hts
    (u16FromStrE_digits _ _ (by simp) hdig hval (by omega))

lemma pDfc_fwd (s : String) (f : DiskFormatCode) (r : List Nat)
    (hs : s = "STL25.01" ∨ s = "STL30.01")
    (hp : DiskFormatCode.parse s = Except.ok f) :
    pDfc (asciiBytes s ++ r) = Except.ok (r, f) := by
  unfold pDfc
  rcases hs with hs | hs
  · subst hs
    exact mapResP_fwd (nomTakeStr_fwd (asciiBytes "STL25.01") r (by decide) (by decide))
      (by
        rw [show String.mk ((asciiBytes "STL25.01").map Char.ofNat) = "STL25.01" from by decide]
        exact hp)
  · subst hs
    exact mapResP_fwd (nomTakeStr_fwd (asciiBytes "STL30.01") r (by decide) (by decide))
      (by
        rw [show String.mk ((asciiBytes "STL30.01").map Char.ofNat) = "STL30.01" from by decide]
        exact hp)

lemma pDsc_fwd (b : Nat) (v : DisplayStandardCode) (r : List Nat)
    (hp : DisplayStandardCode.parse b = Except.ok v) :
    pDsc (b :: r) = Except.ok (r, v) := by
  unfold pDsc
  exact mapResP_fwd (show nomBeU8 (b :: r) = Except.ok (r, b) from rfl) hp

lemma cct_parse_length {data : List Nat} {w : CharacterCodeTable}
    (h : CharacterCodeTable.parse data = Except.ok w) : data.length = 2 := by
  unfold CharacterCodeTable.parse at h
  split_ifs at h with h1 h2
  omega

lemma pCct_fwd (data : List Nat) (w : CharacterCodeTable) (r : List Nat)
    (hp : CharacterCodeTable.parse data = Except.ok w) :
    pCct (data ++ r) = Except.ok (r, w) := by
  unfold pCct
  exact mapResP_fwd (nomTake_exact data r 2 (cct_parse_length hp)) hp

lemma from_u16_not_in (n : Nat) (hn : n ∉ ([437, 850, 860, 863, 865] : List Nat)) :
    CodePageNumber.from_u16 n = Except.error (ParseError.CodePageNumber n) := by
  simp only [List.mem_cons, List.not_mem_nil, or_false, not_or] at hn
  unfold CodePageNumber.from_u16
  rw [if_neg hn.1, if_neg hn.2.1, if_neg hn.2.2.1, if_neg hn.2.2.2.1, if_neg hn.2.2.2.2]

/-- C5 (amended): an input whose first three bytes are ASCII digits
denoting a number outside the supported code-page set, followed by a
valid Disk Format Code, Display Standard Code and Character Code Table
(the fields the parser reads before validating the code page), makes
the document parse fail — no panic, no partial document — with the
error the public From conversion produces: a NomParsingError whose
message is the Display rendering of the internally raised
CodePageNumber error kind. -/
theorem parse_bad_codepage_amended
    (d1 d2 d3 : Nat) (s : String) (f : DiskFormatCode) (dscB : Nat)
    (v : DisplayStandardCode) (cctB : List Nat) (w : CharacterCodeTable) (rest : List Nat)
    (h1 : 48 ≤ d1 ∧ d1 ≤ 57) (h2 : 48 ≤ d2 ∧ d2 ≤ 57) (h3 : 48 ≤ d3 ∧ d3 ≤ 57)
    (hs : s = "STL25.01" ∨ s = "STL30.01")
    (hdfc : DiskFormatCode.parse s = Except.ok f)
    (hdsc : DisplayStandardCode.parse dscB = Except.ok v)
    (hcct : CharacterCodeTable.parse cctB = Except.ok w)
    (hn : ((d1 - 48) * 100 + (d2 - 48) * 10 + (d3 - 48)) ∉ ([437, 850, 860, 863, 865] : List Nat)) :
    parse_stl_from_slice (d1 :: d2 :: d3 :: (asciiBytes s ++ [dscB] ++ cctB ++ rest)) =
      Except.error (ParseError.NomParsingError
        ("Unknown Code Page Number: " ++
          natToStr ((d1 - 48) * 100 + (d2 - 48) * 10 + (d3 - 48)))) := by
  unfold parse_stl_from_slice parse_stl parse_gsi_block
  rw [show asciiBytes s ++ [dscB] ++ cctB ++ rest =
    asciiBytes s ++ (dscB :: (cctB ++ rest)) from by simp [List.append_assoc]]
  rw [pTakeU16Str_3digits d1 d2 d3 _ h1 h2 h3]
  simp only [pbind_ok_eq]
  rw [pDfc_fwd s f _ hs hdfc]
  simp only [pbind_ok_eq]
  rw [pDsc_fwd dscB v _ hdsc]
  simp only [pbind_ok_eq]
  rw [pCct_fwd cctB w rest hcct]
  simp only [pbind_ok_eq]
  rw [from_u16_not_in _ hn]
  simp only [ebind_err_eq, pbind_err_eq]
  rfl

deriving instance DecidableEq for Except

/-- The 14-byte prefix with code page digits 999 followed by valid
format, display and table fields. -/
def bs999 : List Nat :=
  [0x39, 0x39, 0x39] ++ asciiBytes "STL25.01" ++ [0x31] ++ asciiBytes "00"

/-- Counterexample for C5 as stated: on input with code page digits 999
the public parse error is the NomParsingError kind (carrying the
Display text of the internal CodePageNumber error), not the
CodePageNumber kind: the From nom::Err conversion re-wraps every
recoverable error. -/
theorem parse_bad_codepage_cex :
    parse_stl_from_slice bs999 =
      Except.error (ParseError.NomParsingError "Unknown Code Page Number: 999") ∧
    parse_stl_from_slice bs999 ≠ Except.error (ParseError.CodePageNumber 999) :=
  ⟨by decide, by decide⟩

/-- Witness for C5 (amended) at the concrete 999 input. -/
theorem parse_bad_codepage_witness :
    parse_stl_from_slice
        (0x39 :: 0x39 :: 0x39 :: (asciiBytes "STL25.01" ++ [0x31] ++ [0x30, 0x30] ++ [])) =
      Except.error (ParseError.NomParsingError
        ("Unknown Code Page Number: " ++
          natToStr ((0x39 - 48) * 100 + (0x39 - 48) * 10 + (0x39 - 48)))) :=
  parse_bad_codepage_amended 0x39 0x39 0x39 "STL25.01" DiskFormatCode.STL25_01 0x31
    DisplayStandardCode.Level1Teletext [0x30, 0x30] CharacterCodeTable.Latin []
    (by decide) (by decide) (by decide) (Or.inl rfl) (by decide) (by decide) (by decide)
    (by decide)

-- Bounds needed for the round-trip theorem.

lemma utf8CC_length : ∀ (k cp : Nat) (l l2 : List Nat) (cp2 : Nat),
    utf8CC k cp l = some (cp2, l2) → l2.length ≤ l.length := by
  intro k
  induction k with
  | zero => intro cp l l2 cp2 h; simp [utf8CC] at h; rw [h.2]
  | succ j ih =>
    intro cp l l2 cp2 h
    cases l with
    | nil => simp [utf8CC] at h
    | cons b rest =>
      unfold utf8CC at h
      split_ifs at h with hc
      have := ih _ rest l2 cp2 h
      simp only [List.length_cons]
      omega

lemma utf8_multi_length (f k acc0 : Nat) (rest : List Nat) (cs : List Char)
    (cond : Nat → Prop) [DecidablePred cond]
    (ih : ∀ (l : List Nat) (cs2 : List Char), utf8DecodeF f l = some cs2 → cs2.length ≤ l.length)
    (h : (match utf8CC k acc0 rest with
      | some (cp, rest2) =>
        if cond cp then (utf8DecodeF f rest2).map (fun x => Char.ofNat cp :: x) else none
      | none => none) = some cs) :
    cs.length ≤ rest.length + 1 := by
  cases hcc : utf8CC k acc0 rest with
  | none => rw [hcc] at h; simp at h
  | some p =>
    obtain ⟨cp, rest2⟩ := p
    rw [hcc] at h
    replace h : (if cond cp then (utf8DecodeF f rest2).map (fun x => Char.ofNat cp :: x)
      else none) = some cs := h
    split_ifs at h with hcond
    cases ho : utf8DecodeF f rest2 with
    | none => rw [ho] at h; simp at h
    | some cs2 =>
      rw [ho] at h
      simp only [Option.map, Option.some.injEq] at h
      have h1 := utf8CC_length k acc0 rest rest2 cp hcc
      have h2 := ih rest2 cs2 ho
      rw [← h]
      simp only [List.length_cons]
      omega

lemma utf8DecodeF_length : ∀ (fuel : Nat) (l : List Nat) (cs : List Char),
    utf8DecodeF fuel l = some cs → cs.length ≤ l.length := by
  intro fuel
  induction fuel with
  | zero =>
    intro l cs h
    cases l with
    | nil =>
      simp only [utf8DecodeF, Option.some.injEq] at h
      rw [← h]
      simp
    | cons b rest => simp [utf8DecodeF] at h
  | succ f ih =>
    intro l cs h
    cases l with
    | nil =>
      simp only [utf8DecodeF, Option.some.injEq] at h
      rw [← h]
      simp
    | cons b rest =>
      unfold utf8DecodeF at h
      split_ifs at h with ha hb hc hd he
      · cases ho : utf8DecodeF f rest with
        | none => rw [ho] at h; simp at h
        | some cs2 =>
          rw [ho] at h
          simp only [Option.map, Option.some.injEq] at h
          have := ih rest cs2 ho
          rw [← h]
          simp only [List.length_cons]
          omega
      all_goals
        simp only [List.length_cons]
        first
        | exact utf8_multi_length f 1 (b - 0xC0) rest cs _ ih h
        | exact utf8_multi_length f 2 (b - 0xE0) rest cs _ ih h
        | exact utf8_multi_length f 3 (b - 0xF0) rest cs _ ih h

lemma utf8Decode_length {l : List Nat} {cs : List Char} (h : utf8Decode l = some cs) :
    cs.length ≤ l.length :=
  utf8DecodeF_length l.length l cs h

lemma charDigit_le {c : Char} {d : Nat} (h : charDigit c = some d) : d ≤ 9 := by
  unfold charDigit at h
  split_ifs at h with hc
  simp only [Option.some.injEq] at h
  omega

lemma foldl_digits_none : ∀ (l : List Char),
    l.foldl
      (fun acc c =>
        match acc, charDigit c with
        | some x, some d => some (x * 10 + d)
        | _, _ => none)
      none = none := by
  intro l
  induction l with
  | nil => rfl
  | cons c rest ih => simpa using ih

lemma parseDigitsVal_fold_lt : ∀ (l : List Char) (a v : Nat),
    l.foldl
      (fun acc c =>
        match acc, charDigit c with
        | some x, some d => some (x * 10 + d)
        | _, _ => none)
      (some a) = some v →
    v < (a + 1) * 10 ^ l.length := by
  intro l
  induction l with
  | nil =>
    intro a v h
    simp only [List.foldl_nil, Option.some.injEq] at h
    simp [← h]
  | cons c rest ih =>
    intro a v h
    simp only [List.foldl_cons] at h
    cases hcd : charDigit c with
    | none =>
      rw [hcd] at h
      rw [show (match some a, (none : Option Nat) with
        | some x, some d => some (x * 10 + d)
        | _, _ => none) = none from rfl] at h
      rw [foldl_digits_none] at h
      simp at h
    | some d =>
      rw [hcd] at h
      replace h := ih (a * 10 + d) v h
      have hd := charDigit_le hcd
      have hmono : (a * 10 + d + 1) * 10 ^ rest.length ≤ ((a + 1) * 10) * 10 ^ rest.length :=
        Nat.mul_le_mul_right _ (by omega)
      have hpow : ((a + 1) * 10) * 10 ^ rest.length = (a + 1) * 10 ^ (rest.length + 1) := by
        rw [pow_succ]
        ring
      simp only [List.length_cons]
      omega

lemma parseDigitsVal_lt {l : List Char} {v : Nat} (h : parseDigitsVal l = some v) :
    v < 10 ^ l.length := by
  have := parseDigitsVal_fold_lt l 0 v h
  simpa using this

lemma u16Digits_ok_lt {ds : List Char} {v : Nat} (h : u16Digits ds = Except.ok v) :
    v ≤ 65535 ∧ v < 10 ^ ds.length := by
  cases ds with
  | nil => simp [u16Digits] at h
  | cons c rest =>
    replace h : (match parseDigitsVal (c :: rest) with
      | none => (Except.error "invalid digit found in string" : Except String Nat)
      | some w =>
        if w ≤ 65535 then Except.ok w
        else Except.error "number too large to fit in target type") = Except.ok v := h
    cases hpd : parseDigitsVal (c :: rest) with
    | none => rw [hpd] at h; simp at h
    | some w =>
      rw [hpd] at h
      replace h : (if w ≤ 65535 then (Except.ok w : Except String Nat)
        else Except.error "number too large to fit in target type") = Except.ok v := h
      split_ifs at h with hw
      simp only [Except.ok.injEq] at h
      subst h
      exact ⟨hw, parseDigitsVal_lt hpd⟩

lemma u8Digits_ok_lt {ds : List Char} {v : Nat} (h : u8Digits ds = Except.ok v) :
    v ≤ 255 ∧ v < 10 ^ ds.length := by
  cases ds with
  | nil => simp [u8Digits] at h
  | cons c rest =>
    replace h : (match parseDigitsVal (c :: rest) with
      | none => (Except.error "invalid digit found in string" : Except String Nat)
      | some w =>
        if w ≤ 255 then Except.ok w
        else Except.error "number too large to fit in target type") = Except.ok v := h
    cases hpd : parseDigitsVal (c :: rest) with
    | none => rw [hpd] at h; simp at h
    | some w =>
      rw [hpd] at h
      replace h : (if w ≤ 255 then (Except.ok w : Except String Nat)
        else Except.error "number too large to fit in target type") = Except.ok v := h
      split_ifs at h with hw
      simp only [Except.ok.injEq] at h
      subst h
      exact ⟨hw, parseDigitsVal_lt hpd⟩

lemma u16FromStrE_ok_lt {cs : List Char} {v : Nat} (h : u16FromStrE cs = Except.ok v) :
    v ≤ 65535 ∧ v < 10 ^ cs.length := by
  cases cs with
  | nil => simp [u16FromStrE] at h
  | cons c rest =>
    replace h : u16Digits (if c = Char.ofNat 43 then rest else c :: rest) = Except.ok v := h
    by_cases hc : c = Char.ofNat 43
    · rw [if_pos hc] at h
      obtain ⟨h1, h2⟩ := u16Digits_ok_lt h
      refine ⟨h1, lt_of_lt_of_le h2 ?_⟩
      exact Nat.pow_le_pow_right (by norm_num) (by simp)
    · rw [if_neg hc] at h
      exact u16Digits_ok_lt h

lemma u8FromStrE_ok_lt {cs : List Char} {v : Nat} (h : u8FromStrE cs = Except.ok v) :
    v ≤ 255 ∧ v < 10 ^ cs.length := by
  cases cs with
  | nil => simp [u8FromStrE] at h
  | cons c rest =>
    replace h : u8Digits (if c = Char.ofNat 43 then rest else c :: rest) = Except.ok v := h
    by_cases hc : c = Char.ofNat 43
    · rw [if_pos hc] at h
      obtain ⟨h1, h2⟩ := u8Digits_ok_lt h
      refine ⟨h1, lt_of_lt_of_le h2 ?_⟩
      exact Nat.pow_le_pow_right (by norm_num) (by simp)
    · rw [if_neg hc] at h
      exact u8Digits_ok_lt h

-- Round-trip toolkit (C1): re-encoding ASCII text fields.

lemma cpDecode_data (cp : Nat) (l : List Nat) : (cpDecode cp l).data = l.map cpDecodeByte := rfl

lemma cpDecode_length (cp : Nat) (l : List Nat) : (cpDecode cp l).data.length = l.length := by
  rw [cpDecode_data, List.length_map]

lemma cpDecode_utf8Encode (cp : Nat) (s : String) (h : ∀ c ∈ s.data, c.toNat < 0x80) :
    cpDecode cp (utf8Encode s) = s := by
  rw [utf8Encode_ascii s h]
  unfold cpDecode
  rw [List.map_map]
  have : s.data.map (cpDecodeByte ∘ Char.toNat) = s.data.map id := by
    apply List.map_congr_left
    intro c hc
    have hlt := h c hc
    simp only [Function.comp_apply, cpDecodeByte, id_eq]
    rw [if_pos (by omega)]
    exact Char.ofNat_toNat c
  rw [this, List.map_id]

lemma padField_exact (bs : List Nat) (w : Nat) (h : bs.length = w) : padField bs w = bs := by
  unfold padField
  rw [h, Nat.sub_self, List.replicate_zero, List.append_nil]

lemma pText_seg_fwd (cp n : Nat) (seg r : List Nat) (h : seg.length = n) :
    pText cp n (seg ++ r) = Except.ok (r, cpDecode cp seg) := by
  unfold pText
  rw [nomTake_exact seg r n h]

lemma pText_pad_fwd (cp n : Nat) (s : String) (r : List Nat)
    (hlen : s.data.length = n) (hascii : ∀ c ∈ s.data, c.toNat < 0x80) :
    pText cp n (padField (utf8Encode s) n ++ r) = Except.ok (r, s) := by
  have hel : (utf8Encode s).length = n := by
    rw [utf8Encode_ascii_length s hascii, hlen]
  rw [padField_exact _ _ hel, pText_seg_fwd cp n _ r hel, cpDecode_utf8Encode cp s hascii]

-- Inversion lemmas for the GSI field parsers.

lemma nomTakeStr_ok_inv {n : Nat} {i i2 : List Nat} {cs : List Char}
    (h : nomTakeStr n i = Except.ok (i2, cs)) :
    ∃ seg, i = seg ++ i2 ∧ seg.length = n ∧ utf8Decode seg = some cs := by
  unfold nomTakeStr at h
  cases ht : nomTake n i with
  | error e => rw [ht] at h; simp at h
  | ok p =>
    obtain ⟨rest, bytes⟩ := p
    rw [ht] at h
    replace h : (match utf8Decode bytes with
      | some cs => (Except.ok (rest, cs) : PRes (List Char))
      | none => Except.error (NomErr.error (ParseError.NomParsingError "Fail"))) =
        Except.ok (i2, cs) := h
    cases hd : utf8Decode bytes with
    | none =>
      rw [hd] at h
      simp at h
    | some cs2 =>
      rw [hd] at h
      replace h : (Except.ok (rest, cs2) : PRes (List Char)) = Except.ok (i2, cs) := h
      simp only [Except.ok.injEq, Prod.mk.injEq] at h
      obtain ⟨hi, hcs⟩ := h
      obtain ⟨hsplit, hlen⟩ := nomTake_ok_inv ht
      exact ⟨bytes, by rw [hsplit, hi], hlen, by rw [hd, hcs]⟩

lemma pText_ok_inv {cp n : Nat} {i i2 : List Nat} {s : String}
    (h : pText cp n i = Except.ok (i2, s)) :
    ∃ seg, i = seg ++ i2 ∧ seg.length = n ∧ s = cpDecode cp seg := by
  unfold pText at h
  cases ht : nomTake n i with
  | error e => rw [ht] at h; simp at h
  | ok p =>
    obtain ⟨rest, bytes⟩ := p
    rw [ht] at h
    replace h : (Except.ok (rest, cpDecode cp bytes) : PRes String) = Except.ok (i2, s) := h
    simp only [Except.ok.injEq, Prod.mk.injEq] at h
    obtain ⟨hsplit, hlen⟩ := nomTake_ok_inv ht
    exact ⟨bytes, by rw [hsplit, h.1], hlen, h.2.symm⟩

lemma pTakeU16Str_ok_inv {n : Nat} {i i2 : List Nat} {v : Nat}
    (h : pTakeU16Str n i = Except.ok (i2, v)) :
    (∃ seg, i = seg ++ i2 ∧ seg.length = n) ∧ v ≤ 65535 ∧ v < 10 ^ n := by
  unfold pTakeU16Str at h
  obtain ⟨cs, hts, hfs⟩ := mapResS_ok_inv h
  obtain ⟨seg, hsplit, hlen, hdec⟩ := nomTakeStr_ok_inv hts
  obtain ⟨hb, hlt⟩ := u16FromStrE_ok_lt hfs
  have hcl : cs.length ≤ n := by
    have := utf8Decode_length hdec
    omega
  refine ⟨⟨seg, hsplit, hlen⟩, hb, lt_of_lt_of_le hlt ?_⟩
  exact Nat.pow_le_pow_right (by norm_num) hcl

lemma pTakeU8Str_ok_inv {n : Nat} {i i2 : List Nat} {v : Nat}
    (h : pTakeU8Str n i = Except.ok (i2, v)) :
    (∃ seg, i = seg ++ i2 ∧ seg.length = n) ∧ v ≤ 255 ∧ v < 10 ^ n := by
  unfold pTakeU8Str at h
  obtain ⟨cs, hts, hfs⟩ := mapResS_ok_inv h
  obtain ⟨seg, hsplit, hlen, hdec⟩ := nomTakeStr_ok_inv hts
  obtain ⟨hb, hlt⟩ := u8FromStrE_ok_lt hfs
  have hcl : cs.length ≤ n := by
    have := utf8Decode_length hdec
    omega
  refine ⟨⟨seg, hsplit, hlen⟩, hb, lt_of_lt_of_le hlt ?_⟩
  exact Nat.pow_le_pow_right (by norm_num) hcl

lemma pDfc_ok_inv {i i2 : List Nat} {f : DiskFormatCode}
    (h : pDfc i = Except.ok (i2, f)) : ∃ seg, i = seg ++ i2 ∧ seg.length = 8 := by
  unfold pDfc at h
  obtain ⟨cs, hts, _⟩ := mapResP_ok_inv h
  obtain ⟨seg, hsplit, hlen, _⟩ := nomTakeStr_ok_inv hts
  exact ⟨seg, hsplit, hlen⟩

lemma pDsc_ok_inv {i i2 : List Nat} {v : DisplayStandardCode}
    (h : pDsc i = Except.ok (i2, v)) : ∃ b, i = b :: i2 := by
  unfold pDsc at h
  obtain ⟨b, hb, _⟩ := mapResP_ok_inv h
  exact ⟨b, nomBeU8_ok_inv hb⟩

lemma pTcs_ok_inv {i i2 : List Nat} {v : TimeCodeStatus}
    (h : pTcs i = Except.ok (i2, v)) : ∃ b, i = b :: i2 := by
  unfold pTcs at h
  obtain ⟨b, hb, _⟩ := mapResP_ok_inv h
  exact ⟨b, nomBeU8_ok_inv hb⟩

lemma pCct_ok_inv {i i2 : List Nat} {w : CharacterCodeTable}
    (h : pCct i = Except.ok (i2, w)) : ∃ seg, i = seg ++ i2 ∧ seg.length = 2 := by
  unfold pCct at h
  obtain ⟨seg, hs, _⟩ := mapResP_ok_inv h
  obtain ⟨hsplit, hlen⟩ := nomTake_ok_inv hs
  exact ⟨seg, hsplit, hlen⟩

lemma pText_len_suffix {cp n : Nat} {i i2 : List Nat} {s : String}
    (h : pText cp n i = Except.ok (i2, s)) : s.data.length = n ∧ i2 <:+ i := by
  obtain ⟨seg, hsplit, hlen, hdef⟩ := pText_ok_inv h
  exact ⟨by rw [hdef, cpDecode_length, hlen], ⟨seg, hsplit.symm⟩⟩

lemma pTakeU16Str_bound_suffix {n : Nat} {i i2 : List Nat} {v : Nat}
    (h : pTakeU16Str n i = Except.ok (i2, v)) :
    v ≤ 65535 ∧ v < 10 ^ n ∧ i2 <:+ i := by
  obtain ⟨⟨seg, hsplit, _⟩, hb, hlt⟩ := pTakeU16Str_ok_inv h
  exact ⟨hb, hlt, ⟨seg, hsplit.symm⟩⟩

lemma pTakeU8Str_bound_suffix {n : Nat} {i i2 : List Nat} {v : Nat}
    (h : pTakeU8Str n i = Except.ok (i2, v)) :
    v ≤ 255 ∧ v < 10 ^ n ∧ i2 <:+ i := by
  obtain ⟨⟨seg, hsplit, _⟩, hb, hlt⟩ := pTakeU8Str_ok_inv h
  exact ⟨hb, hlt, ⟨seg, hsplit.symm⟩⟩

/-- The free-text fields of the header with their fixed byte widths. -/
def gsiFields (g : GsiBlock) : List (String × Nat) :=
  [(g.lc, 2), (g.opt, 32), (g.oet, 32), (g.tpt, 32), (g.tet, 32), (g.tn, 32),
   (g.tcd, 32), (g.slr, 16), (g.cd, 6), (g.rd, 6), (g.rn, 2), (g.tcp, 8), (g.tcf, 8),
   (g.co, 3), (g.pub_, 32), (g.en, 32), (g.ecd, 32), (g._spare, 75), (g.uda, 576)]

/-- What a successful header parse guarantees of the produced value:
every free-text field was decoded from exactly its fixed byte width
(one character per byte), and every counter respects both its from_str
integer bound and its digit-count bound. -/
def gsiParsedBounds (g : GsiBlock) : Prop :=
  (∀ p ∈ gsiFields g, (Prod.fst p).data.length = Prod.snd p) ∧
  g.tnb ≤ 65535 ∧ g.tns ≤ 65535 ∧ g.tng ≤ 999 ∧ g.mnc ≤ 99 ∧ g.mnr ≤ 99 ∧
  g.tnd ≤ 9 ∧ g.dsn ≤ 9

lemma parse_gsi_inv {input r : List Nat} {g : GsiBlock}
    (h : parse_gsi_block input = Except.ok (r, g)) :
    gsiParsedBounds g ∧ r <:+ input := by
  unfold parse_gsi_block at h
  obtain ⟨i0, codepage, h01, h⟩ := pbind_ok h
  obtain ⟨i1, dfc, h02, h⟩ := pbind_ok h
  obtain ⟨i2x, dsc, h03, h⟩ := pbind_ok h
  obtain ⟨i3, cct, h04, h⟩ := pbind_ok h
  obtain ⟨cpn, h05, h⟩ := ebind_ok h
  obtain ⟨cp, h06, h⟩ := ebind_ok h
  obtain ⟨i4, lc, h07, h⟩ := pbind_ok h
  obtain ⟨i5, opt, h08, h⟩ := pbind_ok h
  obtain ⟨i6, oet, h09, h⟩ := pbind_ok h
  obtain ⟨i7, tpt, h10, h⟩ := pbind_ok h
  obtain ⟨i8, tet, h11, h⟩ := pbind_ok h
  obtain ⟨i9, tn, h12, h⟩ := pbind_ok h
  obtain ⟨i10, tcd, h13, h⟩ := pbind_ok h
  obtain ⟨i11, slr, h14, h⟩ := pbind_ok h
  obtain ⟨i12, cd, h15, h⟩ := pbind_ok h
  obtain ⟨i13, rd, h16, h⟩ := pbind_ok h
  obtain ⟨i14, rn, h17, h⟩ := pbind_ok h
  obtain ⟨i15, tnb, h18, h⟩ := pbind_ok h
  obtain ⟨i16, tns, h19, h⟩ := pbind_ok h
  obtain ⟨i17, tng, h20, h⟩ := pbind_ok h
  obtain ⟨i18, mnc, h21, h⟩ := pbind_ok h
  obtain ⟨i19, mnr, h22, h⟩ := pbind_ok h
  obtain ⟨i20, tcs, h23, h⟩ := pbind_ok h
  obtain ⟨i21, tcp, h24, h⟩ := pbind_ok h
  obtain ⟨i22, tcf, h25, h⟩ := pbind_ok h
  obtain ⟨i23, tnd, h26, h⟩ := pbind_ok h
  obtain ⟨i24, dsn, h27, h⟩ := pbind_ok h
  obtain ⟨i25, co, h28, h⟩ := pbind_ok h
  obtain ⟨i26, pub_, h29, h⟩ := pbind_ok h
  obtain ⟨i27, en, h30, h⟩ := pbind_ok h
  obtain ⟨i28, ecd, h31, h⟩ := pbind_ok h
  obtain ⟨i29, spare_, h32, h⟩ := pbind_ok h
  obtain ⟨i30, uda, h33, h⟩ := pbind_ok h
  simp only [Except.ok.injEq, Prod.mk.injEq] at h
  obtain ⟨hr, hg⟩ := h
  subst hr
  subst hg
  obtain ⟨_, _, s01⟩ := pTakeU16Str_bound_suffix h01
  obtain ⟨_, hsplit02, _⟩ := pDfc_ok_inv h02
  have s02 : i1 <:+ i0 := ⟨_, hsplit02.symm⟩
  obtain ⟨b03, hsplit03⟩ := pDsc_ok_inv h03
  have s03 : i2x <:+ i1 := ⟨[b03], hsplit03.symm⟩
  obtain ⟨_, hsplit04, _⟩ := pCct_ok_inv h04
  have s04 : i3 <:+ i2x := ⟨_, hsplit04.symm⟩
  obtain ⟨e07, s07⟩ := pText_len_suffix h07
  obtain ⟨e08, s08⟩ := pText_len_suffix h08
  obtain ⟨e09, s09⟩ := pText_len_suffix h09
  obtain ⟨e10, s10⟩ := pText_len_suffix h10
  obtain ⟨e11, s11⟩ := pText_len_suffix h11
  obtain ⟨e12, s12⟩ := pText_len_suffix h12
  obtain ⟨e13, s13⟩ := pText_len_suffix h13
  obtain ⟨e14, s14⟩ := pText_len_suffix h14
  obtain ⟨e15, s15⟩ := pText_len_suffix h15
  obtain ⟨e16, s16⟩ := pText_len_suffix h16
  obtain ⟨e17, s17⟩ := pText_len_suffix h17
  obtain ⟨b18, l18, s18⟩ := pTakeU16Str_bound_suffix h18
  obtain ⟨b19, l19, s19⟩ := pTakeU16Str_bound_suffix h19
  obtain ⟨b20, l20, s20⟩ := pTakeU16Str_bound_suffix h20
  obtain ⟨b21, l21, s21⟩ := pTakeU16Str_bound_suffix h21
  obtain ⟨b22, l22, s22⟩ := pTakeU16Str_bound_suffix h22
  obtain ⟨b23x, hsplit23⟩ := pTcs_ok_inv h23
  have s23 : i20 <:+ i19 := ⟨[b23x], hsplit23.symm⟩
  obtain ⟨e24, s24⟩ := pText_len_suffix h24
  obtain ⟨e25, s25⟩ := pText_len_suffix h25
  obtain ⟨b26, l26, s26⟩ := pTakeU8Str_bound_suffix h26
  obtain ⟨b27, l27, s27⟩ := pTakeU8Str_bound_suffix h27
  obtain ⟨e28, s28⟩ := pText_len_suffix h28
  obtain ⟨e29, s29⟩ := pText_len_suffix h29
  obtain ⟨e30, s30⟩ := pText_len_suffix h30
  obtain ⟨e31, s31⟩ := pText_len_suffix h31
  obtain ⟨e32, s32⟩ := pText_len_suffix h32
  obtain ⟨e33, s33⟩ := pText_len_suffix h33
  refine ⟨⟨?_, b18, b19, show tng ≤ 999 by omega, show mnc ≤ 99 by omega,
    show mnr ≤ 99 by omega, show tnd ≤ 9 by omega, show dsn ≤ 9 by omega⟩, ?_⟩
  · intro p hp
    simp only [gsiFields, List.mem_cons, List.not_mem_nil, or_false] at hp
    rcases hp with rfl | rfl | rfl | rfl | rfl | rfl | rfl | rfl | rfl | rfl |
      rfl | rfl | rfl | rfl | rfl | rfl | rfl | rfl | rfl
    · exact e07
    · exact e08
    · exact e09
    · exact e10
    · exact e11
    · exact e12
    · exact e13
    · exact e14
    · exact e15
    · exact e16
    · exact e17
    · exact e24
    · exact e25
    · exact e28
    · exact e29
    · exact e30
    · exact e31
    · exact e32
    · exact e33
  · exact s33.trans (s32.trans (s31.trans (s30.trans (s29.trans (s28.trans (s27.trans
      (s26.trans (s25.trans (s24.trans (s23.trans (s22.trans (s21.trans (s20.trans
      (s19.trans (s18.trans (s17.trans (s16.trans (s15.trans (s14.trans (s13.trans
      (s12.trans (s11.trans (s10.trans (s09.trans (s08.trans (s07.trans (s04.trans
      (s03.trans (s02.trans s01)))))))))))))))))))))))))))))

-- Forward reparse lemmas for the serialized header.

lemma nomTakeStr_fwd_str (s : String) (n : Nat) (r : List Nat)
    (hlen : s.data.length = n) (hascii : ∀ c ∈ s.data, c.toNat < 0x80) :
    nomTakeStr n (utf8Encode s ++ r) = Except.ok (r, s.data) := by
  have he := utf8Encode_ascii s hascii
  have h1 : (utf8Encode s).length = n := by
    rw [utf8Encode_ascii_length s hascii, hlen]
  have h2 : ∀ b ∈ utf8Encode s, b < 0x80 := by
    rw [he]
    intro b hb
    obtain ⟨c, hc, rfl⟩ := List.mem_map.mp hb
    exact hascii c hc
  rw [nomTakeStr_fwd (utf8Encode s) r h1 h2, he, List.map_map]
  have : s.data.map (Char.ofNat ∘ Char.toNat) = s.data.map id := by
    apply List.map_congr_left
    intro c _
    exact Char.ofNat_toNat c
  rw [this, List.map_id]

lemma pTakeU16Str_formatNum (w v : Nat) (r : List Nat)
    (hv : v ≤ 65535) (hlt : v < 10 ^ w) (hw : 0 < w) :
    pTakeU16Str w (padField (utf8Encode (formatNum w v)) w ++ r) = Except.ok (r, v) := by
  have hascii : ∀ c ∈ (formatNum w v).data, c.toNat < 0x80 := fun c hc => by
    have := formatNum_digits w v c hc
    omega
  have hlen : (formatNum w v).data.length = w := formatNum_length w v hlt hw
  rw [padField_exact _ _ (formatNum_utf8_length w v hlt hw)]
  unfold pTakeU16Str
  exact mapResS_fwd (nomTakeStr_fwd_str _ w r hlen hascii)
    (u16FromStrE_digits _ v (by intro hc; rw [hc] at hlen; simp at hlen; omega)
      (formatNum_digits w v) (parseDigitsVal_formatNum w v) hv)

lemma pTakeU8Str_formatNum (w v : Nat) (r : List Nat)
    (hv : v ≤ 255) (hlt : v < 10 ^ w) (hw : 0 < w) :
    pTakeU8Str w (padField (utf8Encode (formatNum w v)) w ++ r) = Except.ok (r, v) := by
  have hascii : ∀ c ∈ (formatNum w v).data, c.toNat < 0x80 := fun c hc => by
    have := formatNum_digits w v c hc
    omega
  have hlen : (formatNum w v).data.length = w := formatNum_length w v hlt hw
  rw [padField_exact _ _ (formatNum_utf8_length w v hlt hw)]
  unfold pTakeU8Str
  exact mapResS_fwd (nomTakeStr_fwd_str _ w r hlen hascii)
    (u8FromStrE_digits _ v (by intro hc; rw [hc] at hlen; simp at hlen; omega)
      (formatNum_digits w v) (parseDigitsVal_formatNum w v) hv)

/-- The code-page number a CodePageNumber variant denotes. -/
def cpnNum : CodePageNumber → Nat
  | CodePageNumber.CPN_437 => 437
  | CodePageNumber.CPN_850 => 850
  | CodePageNumber.CPN_860 => 860
  | CodePageNumber.CPN_863 => 863
  | CodePageNumber.CPN_865 => 865

lemma pCpn_fwd (c : CodePageNumber) (r : List Nat) :
    pTakeU16Str 3 (CodePageNumber.serialize c ++ r) = Except.ok (r, cpnNum c) := by
  cases c
  · rw [show (CodePageNumber.serialize CodePageNumber.CPN_437 ++ r : List Nat) =
      0x34 :: 0x33 :: 0x37 :: r from rfl,
      pTakeU16Str_3digits 0x34 0x33 0x37 r (by norm_num) (by norm_num) (by norm_num)]
    norm_num [cpnNum]
  · rw [show (CodePageNumber.serialize CodePageNumber.CPN_850 ++ r : List Nat) =
      0x38 :: 0x35 :: 0x30 :: r from rfl,
      pTakeU16Str_3digits 0x38 0x35 0x30 r (by norm_num) (by norm_num) (by norm_num)]
    norm_num [cpnNum]
  · rw [show (CodePageNumber.serialize CodePageNumber.CPN_860 ++ r : List Nat) =
      0x38 :: 0x36 :: 0x30 :: r from rfl,
      pTakeU16Str_3digits 0x38 0x36 0x30 r (by norm_num) (by norm_num) (by norm_num)]
    norm_num [cpnNum]
  · rw [show (CodePageNumber.serialize CodePageNumber.CPN_863 ++ r : List Nat) =
      0x38 :: 0x36 :: 0x33 :: r from rfl,
      pTakeU16Str_3digits 0x38 0x36 0x33 r (by norm_num) (by norm_num) (by norm_num)]
    norm_num [cpnNum]
  · rw [show (CodePageNumber.serialize CodePageNumber.CPN_865 ++ r : List Nat) =
      0x38 :: 0x36 :: 0x35 :: r from rfl,
      pTakeU16Str_3digits 0x38 0x36 0x35 r (by norm_num) (by norm_num) (by norm_num)]
    norm_num [cpnNum]

lemma from_u16_cpnNum (c : CodePageNumber) :
    CodePageNumber.from_u16 (cpnNum c) = Except.ok c := by
  cases c <;> rfl

lemma codingNew_cpnNum (c : CodePageNumber) :
    codingNew (cpnNum c) = Except.ok (cpnNum c) := by
  cases c <;> rfl

lemma pDfc_fwd_c (f : DiskFormatCode) (r : List Nat) :
    pDfc (DiskFormatCode.serialize f ++ r) = Except.ok (r, f) := by
  cases f
  · rw [show DiskFormatCode.serialize DiskFormatCode.STL25_01 = asciiBytes "STL25.01" from
      by decide]
    exact pDfc_fwd "STL25.01" DiskFormatCode.STL25_01 r (Or.inl rfl) rfl
  · rw [show DiskFormatCode.serialize DiskFormatCode.STL30_01 = asciiBytes "STL30.01" from
      by decide]
    exact pDfc_fwd "STL30.01" DiskFormatCode.STL30_01 r (Or.inr rfl) rfl

lemma pDsc_fwd_c (v : DisplayStandardCode) (r : List Nat) :
    pDsc (DisplayStandardCode.serialize v :: r) = Except.ok (r, v) :=
  pDsc_fwd _ v r (by cases v <;> rfl)

lemma pCct_fwd_c (w : CharacterCodeTable) (r : List Nat) :
    pCct (CharacterCodeTable.serialize w ++ r) = Except.ok (r, w) :=
  pCct_fwd _ w r (by cases w <;> rfl)

lemma pTcs_fwd_c (t : TimeCodeStatus) (r : List Nat) :
    pTcs (TimeCodeStatus.serialize t :: r) = Except.ok (r, t) := by
  unfold pTcs
  exact mapResP_fwd (show nomBeU8 (TimeCodeStatus.serialize t :: r) =
    Except.ok (r, TimeCodeStatus.serialize t) from rfl) (by cases t <;> rfl)

/-- Re-parsing a serialized header: the 1024-byte layout of a header
whose text fields are ASCII of exactly their field widths and whose
counters fit their digit widths parses back to the same header. -/
lemma gsi_reparse (g : GsiBlock) (r' : List Nat)
    (hexact : ∀ p ∈ gsiFields g, (Prod.fst p).data.length = Prod.snd p)
    (hascii : ∀ p ∈ gsiFields g, ∀ c ∈ (Prod.fst p).data, c.toNat < 0x80)
    (htnb : g.tnb ≤ 65535) (htns : g.tns ≤ 65535) (htng : g.tng ≤ 999)
    (hmnc : g.mnc ≤ 99) (hmnr : g.mnr ≤ 99) (htnd : g.tnd ≤ 9) (hdsn : g.dsn ≤ 9) :
    parse_gsi_block (gsiLayout g ++ r') = Except.ok (r', g) := by
  have plc : ∀ r, pText (cpnNum g.cpn) 2 (padField (utf8Encode g.lc) 2 ++ r) =
      Except.ok (r, g.lc) := fun r => pText_pad_fwd _ 2 g.lc r
    (hexact (g.lc, 2) (by simp [gsiFields])) (hascii (g.lc, 2) (by simp [gsiFields]))
  have popt : ∀ r, pText (cpnNum g.cpn) 32 (padField (utf8Encode g.opt) 32 ++ r) =
      Except.ok (r, g.opt) := fun r => pText_pad_fwd _ 32 g.opt r
    (hexact (g.opt, 32) (by simp [gsiFields])) (hascii (g.opt, 32) (by simp [gsiFields]))
  have poet : ∀ r, pText (cpnNum g.cpn) 32 (padField (utf8Encode g.oet) 32 ++ r) =
      Except.ok (r, g.oet) := fun r => pText_pad_fwd _ 32 g.oet r
    (hexact (g.oet, 32) (by simp [gsiFields])) (hascii (g.oet, 32) (by simp [gsiFields]))
  have ptpt : ∀ r, pText (cpnNum g.cpn) 32 (padField (utf8Encode g.tpt) 32 ++ r) =
      Except.ok (r, g.tpt) := fun r => pText_pad_fwd _ 32 g.tpt r
    (hexact (g.tpt, 32) (by simp [gsiFields])) (hascii (g.tpt, 32) (by simp [gsiFields]))
  have ptet : ∀ r, pText (cpnNum g.cpn) 32 (padField (utf8Encode g.tet) 32 ++ r) =
      Except.ok (r, g.tet) := fun r => pText_pad_fwd _ 32 g.tet r
    (hexact (g.tet, 32) (by simp [gsiFields])) (hascii (g.tet, 32) (by simp [gsiFields]))
  have ptn : ∀ r, pText (cpnNum g.cpn) 32 (padField (utf8Encode g.tn) 32 ++ r) =
      Except.ok (r, g.tn) := fun r => pText_pad_fwd _ 32 g.tn r
    (hexact (g.tn, 32) (by simp [gsiFields])) (hascii (g.tn, 32) (by simp [gsiFields]))
  have ptcd : ∀ r, pText (cpnNum g.cpn) 32 (padField (utf8Encode g.tcd) 32 ++ r) =
      Except.ok (r, g.tcd) := fun r => pText_pad_fwd _ 32 g.tcd r
    (hexact (g.tcd, 32) (by simp [gsiFields])) (hascii (g.tcd, 32) (by simp [gsiFields]))
  have pslr : ∀ r, pText (cpnNum g.cpn) 16 (padField (utf8Encode g.slr) 16 ++ r) =
      Except.ok (r, g.slr) := fun r => pText_pad_fwd _ 16 g.slr r
    (hexact (g.slr, 16) (by simp [gsiFields])) (hascii (g.slr, 16) (by simp [gsiFields]))
  have pcd : ∀ r, pText (cpnNum g.cpn) 6 (padField (utf8Encode g.cd) 6 ++ r) =
      Except.ok (r, g.cd) := fun r => pText_pad_fwd _ 6 g.cd r
    (hexact (g.cd, 6) (by simp [gsiFields])) (hascii (g.cd, 6) (by simp [gsiFields]))
  have prd : ∀ r, pText (cpnNum g.cpn) 6 (padField (utf8Encode g.rd) 6 ++ r) =
      Except.ok (r, g.rd) := fun r => pText_pad_fwd _ 6 g.rd r
    (hexact (g.rd, 6) (by simp [gsiFields])) (hascii (g.rd, 6) (by simp [gsiFields]))
  have prn : ∀ r, pText (cpnNum g.cpn) 2 (padField (utf8Encode g.rn) 2 ++ r) =
      Except.ok (r, g.rn) := fun r => pText_pad_fwd _ 2 g.rn r
    (hexact (g.rn, 2) (by simp [gsiFields])) (hascii (g.rn, 2) (by simp [gsiFields]))
  have ptcp : ∀ r, pText (cpnNum g.cpn) 8 (padField (utf8Encode g.tcp) 8 ++ r) =
      Except.ok (r, g.tcp) := fun r => pText_pad_fwd _ 8 g.tcp r
    (hexact (g.tcp, 8) (by simp [gsiFields])) (hascii (g.tcp, 8) (by simp [gsiFields]))
  have ptcf : ∀ r, pText (cpnNum g.cpn) 8 (padField (utf8Encode g.tcf) 8 ++ r) =
      Except.ok (r, g.tcf) := fun r => pText_pad_fwd _ 8 g.tcf r
    (hexact (g.tcf, 8) (by simp [gsiFields])) (hascii (g.tcf, 8) (by simp [gsiFields]))
  have pco : ∀ r, pText (cpnNum g.cpn) 3 (padField (utf8Encode g.co) 3 ++ r) =
      Except.ok (r, g.co) := fun r => pText_pad_fwd _ 3 g.co r
    (hexact (g.co, 3) (by simp [gsiFields])) (hascii (g.co, 3) (by simp [gsiFields]))
  have ppub : ∀ r, pText (cpnNum g.cpn) 32 (padField (utf8Encode g.pub_) 32 ++ r) =
      Except.ok (r, g.pub_) := fun r => pText_pad_fwd _ 32 g.pub_ r
    (hexact (g.pub_, 32) (by simp [gsiFields])) (hascii (g.pub_, 32) (by simp [gsiFields]))
  have pen : ∀ r, pText (cpnNum g.cpn) 32 (padField (utf8Encode g.en) 32 ++ r) =
      Except.ok (r, g.en) := fun r => pText_pad_fwd _ 32 g.en r
    (hexact (g.en, 32) (by simp [gsiFields])) (hascii (g.en, 32) (by simp [gsiFields]))
  have pecd : ∀ r, pText (cpnNum g.cpn) 32 (padField (utf8Encode g.ecd) 32 ++ r) =
      Except.ok (r, g.ecd) := fun r => pText_pad_fwd _ 32 g.ecd r
    (hexact (g.ecd, 32) (by simp [gsiFields])) (hascii (g.ecd, 32) (by simp [gsiFields]))
  have pspare : ∀ r, pText (cpnNum g.cpn) 75 (padField (utf8Encode g._spare) 75 ++ r) =
      Except.ok (r, g._spare) := fun r => pText_pad_fwd _ 75 g._spare r
    (hexact (g._spare, 75) (by simp [gsiFields])) (hascii (g._spare, 75) (by simp [gsiFields]))
  have puda : ∀ r, pText (cpnNum g.cpn) 576 (padField (utf8Encode g.uda) 576 ++ r) =
      Except.ok (r, g.uda) := fun r => pText_pad_fwd _ 576 g.uda r
    (hexact (g.uda, 576) (by simp [gsiFields])) (hascii (g.uda, 576) (by simp [gsiFields]))
  have ptnb : ∀ r, pTakeU16Str 5 (padField (utf8Encode (formatNum 5 g.tnb)) 5 ++ r) =
      Except.ok (r, g.tnb) := fun r => pTakeU16Str_formatNum 5 g.tnb r htnb (by omega) (by norm_num)
  have ptns : ∀ r, pTakeU16Str 5 (padField (utf8Encode (formatNum 5 g.tns)) 5 ++ r) =
      Except.ok (r, g.tns) := fun r => pTakeU16Str_formatNum 5 g.tns r htns (by omega) (by norm_num)
  have ptng : ∀ r, pTakeU16Str 3 (padField (utf8Encode (formatNum 3 g.tng)) 3 ++ r) =
      Except.ok (r, g.tng) := fun r => pTakeU16Str_formatNum 3 g.tng r (by omega) (by omega) (by norm_num)
  have pmnc : ∀ r, pTakeU16Str 2 (padField (utf8Encode (formatNum 2 g.mnc)) 2 ++ r) =
      Except.ok (r, g.mnc) := fun r => pTakeU16Str_formatNum 2 g.mnc r (by omega) (by omega) (by norm_num)
  have pmnr : ∀ r, pTakeU16Str 2 (padField (utf8Encode (formatNum 2 g.mnr)) 2 ++ r) =
      Except.ok (r, g.mnr) := fun r => pTakeU16Str_formatNum 2 g.mnr r (by omega) (by omega) (by norm_num)
  have ptnd : ∀ r, pTakeU8Str 1 (padField (utf8Encode (formatNum 1 g.tnd)) 1 ++ r) =
      Except.ok (r, g.tnd) := fun r => pTakeU8Str_formatNum 1 g.tnd r (by omega) (by omega) (by norm_num)
  have pdsn : ∀ r, pTakeU8Str 1 (padField (utf8Encode (formatNum 1 g.dsn)) 1 ++ r) =
      Except.ok (r, g.dsn) := fun r => pTakeU8Str_formatNum 1 g.dsn r (by omega) (by omega) (by norm_num)
  simp only [gsiLayout, parse_gsi_block, List.append_assoc, List.cons_append,
    List.singleton_append, List.nil_append,
    pCpn_fwd, pDfc_fwd_c, pDsc_fwd_c, pCct_fwd_c, pTcs_fwd_c,
    from_u16_cpnNum, codingNew_cpnNum, pbind_ok_eq, ebind_ok_eq,
    plc, popt, poet, ptpt, ptet, ptn, ptcd, pslr, pcd, prd, prn,
    ptnb, ptns, ptng, pmnc, pmnr, ptcp, ptcf, ptnd, pdsn,
    pco, ppub, pen, pecd, pspare, puda]

-- Record round-trip.

/-- The facts a record needs to re-serialize to the 128 bytes it was
parsed from: an in-range subtitle number, a full 112-byte text field,
and the active character code table. -/
def ttiGood (cct : CharacterCodeTable) (t : TtiBlock) : Prop :=
  t.sn < 65536 ∧ t.tf.length = 112 ∧ t.cct = cct

lemma parse_tti_good {cct : CharacterCodeTable} {i r : List Nat} {t : TtiBlock}
    (h : parse_tti_block cct i = Except.ok (r, t)) (hb : ∀ x ∈ i, x < 256) :
    ttiGood cct t ∧ r <:+ i := by
  obtain ⟨a, b, cb, hi, hsn, _, hlen, hcct⟩ := parse_tti_inv h
  have ha : a < 256 := hb a (by rw [hi]; simp)
  have hbb : b < 256 := hb b (by rw [hi]; simp)
  refine ⟨⟨by omega, hlen, hcct⟩, ?_⟩
  rw [hi]
  refine ⟨t.sgn :: a :: b :: t.ebn :: cb :: t.tci.hours :: t.tci.minutes :: t.tci.seconds ::
    t.tci.frames :: t.tco.hours :: t.tco.minutes :: t.tco.seconds :: t.tco.frames ::
    t.vp :: t.jc :: t.cf :: t.tf, ?_⟩
  simp [List.append_assoc]

lemma tti_serialize_length (t : TtiBlock) (h : t.tf.length = 112) :
    (TtiBlock.serialize t).length = 128 := by
  simp [TtiBlock.serialize, Time.serialize, h]

lemma nomBeU8_cons (b : Nat) (l : List Nat) : nomBeU8 (b :: l) = Except.ok (l, b) := rfl

lemma nomLeU16_cons (a b : Nat) (l : List Nat) :
    nomLeU16 (a :: b :: l) = Except.ok (l, a + 256 * b) := rfl

lemma parse_time_cons (h m s f : Nat) (l : List Nat) :
    parse_time (h :: m :: s :: f :: l) =
      Except.ok (l, { hours := h, minutes := m, seconds := s, frames := f }) := rfl

lemma pCs_serialize_cons (c : CumulativeStatus) (r : List Nat) :
    pCs (CumulativeStatus.serialize c :: r) = Except.ok (r, c) := by
  unfold pCs
  exact mapResP_fwd (show nomBeU8 (CumulativeStatus.serialize c :: r) =
    Except.ok (r, CumulativeStatus.serialize c) from rfl) (by cases c <;> rfl)

lemma parse_tti_fwd (cct : CharacterCodeTable) (t : TtiBlock) (r : List Nat)
    (hg : ttiGood cct t) :
    parse_tti_block cct (TtiBlock.serialize t ++ r) = Except.ok (r, t) := by
  obtain ⟨hsn, htf, hcct⟩ := hg
  have hser : TtiBlock.serialize t ++ r =
      t.sgn :: (t.sn % 256) :: (t.sn / 256 % 256) :: t.ebn :: CumulativeStatus.serialize t.cs ::
      t.tci.hours :: t.tci.minutes :: t.tci.seconds :: t.tci.frames ::
      t.tco.hours :: t.tco.minutes :: t.tco.seconds :: t.tco.frames ::
      t.vp :: t.jc :: t.cf :: (t.tf ++ r) := by
    simp [TtiBlock.serialize, Time.serialize]
  rw [hser]
  unfold parse_tti_block
  rw [if_neg (by simp)]
  simp only [nomBeU8_cons, nomLeU16_cons, parse_time_cons, pCs_serialize_cons,
    pbind_ok_eq, nomTake_exact t.tf r 112 htf]
  have harith : t.sn % 256 + 256 * (t.sn / 256 % 256) = t.sn := by omega
  rw [harith, ← hcct]

-- The many1 loop, both directions.

lemma many1TtiFrom_good (cct : CharacterCodeTable) :
    ∀ (fuel : Nat) (i : List Nat) (acc : List TtiBlock) (r : List Nat) (ts : List TtiBlock),
      (∀ x ∈ i, x < 256) → (∀ t ∈ acc, ttiGood cct t) →
      many1TtiFrom cct fuel i acc = Except.ok (r, ts) → ∀ t ∈ ts, ttiGood cct t := by
  intro fuel
  induction fuel with
  | zero => intro i acc r ts _ _ h; simp [many1TtiFrom] at h
  | succ f ih =>
    intro i acc r ts hb hacc h
    unfold many1TtiFrom at h
    cases hp : parse_tti_block cct i with
    | ok p =>
      obtain ⟨i1, t⟩ := p
      rw [hp] at h
      simp only at h
      split_ifs at h with hguard
      obtain ⟨hgood, hsuf⟩ := parse_tti_good hp hb
      exact ih i1 (acc ++ [t]) r ts (fun x hx => hb x (hsuf.subset hx))
        (by
          intro u hu
          rcases List.mem_append.mp hu with hu | hu
          · exact hacc u hu
          · rw [List.mem_singleton.mp hu]
            exact hgood) h
    | error e =>
      rw [hp] at h
      cases e with
      | error pe =>
        simp only [Except.ok.injEq, Prod.mk.injEq] at h
        intro t ht
        rw [← h.2] at ht
        exact hacc t ht
      | incomplete => simp at h
      | failure pe => simp at h

lemma many1Tti_good {cct : CharacterCodeTable} {i r : List Nat} {ts : List TtiBlock}
    (hb : ∀ x ∈ i, x < 256) (h : many1Tti cct i = Except.ok (r, ts)) :
    ∀ t ∈ ts, ttiGood cct t := by
  unfold many1Tti at h
  cases hp : parse_tti_block cct i with
  | ok p =>
    obtain ⟨i1, t⟩ := p
    rw [hp] at h
    obtain ⟨hgood, hsuf⟩ := parse_tti_good hp hb
    exact many1TtiFrom_good cct (i1.length + 1) i1 [t] r ts
      (fun x hx => hb x (hsuf.subset hx))
      (by
        intro u hu
        rw [List.mem_singleton.mp hu]
        exact hgood) h
  | error e =>
    rw [hp] at h
    cases e <;> simp at h

lemma tti_flatten_length (cct : CharacterCodeTable) (ts : List TtiBlock)
    (hg : ∀ t ∈ ts, ttiGood cct t) :
    ((ts.map TtiBlock.serialize).flatten).length = 128 * ts.length := by
  induction ts with
  | nil => simp
  | cons t rest ih =>
    simp only [List.map_cons, List.flatten_cons, List.length_append, List.length_cons]
    rw [tti_serialize_length t (hg t (by simp)).2.1, ih (fun u hu => hg u (by simp [hu]))]
    ring

lemma many1TtiFrom_fwd (cct : CharacterCodeTable) :
    ∀ (ts acc : List TtiBlock) (fuel : Nat),
      (∀ t ∈ ts, ttiGood cct t) → ts.length < fuel →
      many1TtiFrom cct fuel ((ts.map TtiBlock.serialize).flatten) acc =
        Except.ok ([], acc ++ ts) := by
  intro ts
  induction ts with
  | nil =>
    intro acc fuel _ hfuel
    cases fuel with
    | zero => omega
    | succ f =>
      show (match parse_tti_block cct (([] : List TtiBlock).map TtiBlock.serialize).flatten with
        | Except.ok (i1, t) =>
          if i1.length = ((([] : List TtiBlock).map TtiBlock.serialize).flatten).length then
            Except.error (NomErr.error (ParseError.NomParsingError "Many1"))
          else many1TtiFrom cct f i1 (acc ++ [t])
        | Except.error (NomErr.error _) =>
          Except.ok ((([] : List TtiBlock).map TtiBlock.serialize).flatten, acc)
        | Except.error e => Except.error e) = Except.ok ([], acc ++ [])
      rw [show parse_tti_block cct (([] : List TtiBlock).map TtiBlock.serialize).flatten =
        Except.error (NomErr.error (ParseError.NomParsingError "Eof")) from rfl]
      simp
  | cons t rest ih =>
    intro acc fuel hg hfuel
    cases fuel with
    | zero => omega
    | succ f =>
      have hser : ((t :: rest).map TtiBlock.serialize).flatten =
          TtiBlock.serialize t ++ (rest.map TtiBlock.serialize).flatten := by
        simp
      have hp : parse_tti_block cct (((t :: rest).map TtiBlock.serialize).flatten) =
          Except.ok ((rest.map TtiBlock.serialize).flatten, t) := by
        rw [hser]
        exact parse_tti_fwd cct t _ (hg t (by simp))
      unfold many1TtiFrom
      rw [hp]
      simp only
      rw [if_neg (by
        rw [hser, List.length_append, tti_serialize_length t (hg t (by simp)).2.1]
        omega)]
      rw [ih (acc ++ [t]) f (fun u hu => hg u (by simp [hu])) (by simp at hfuel ⊢; omega)]
      simp

lemma many1Tti_fwd (cct : CharacterCodeTable) (ts : List TtiBlock) (hne : ts ≠ [])
    (hg : ∀ t ∈ ts, ttiGood cct t) :
    many1Tti cct ((ts.map TtiBlock.serialize).flatten) = Except.ok ([], ts) := by
  cases ts with
  | nil => simp at hne
  | cons t rest =>
    have hser : ((t :: rest).map TtiBlock.serialize).flatten =
        TtiBlock.serialize t ++ (rest.map TtiBlock.serialize).flatten := by
      simp
    have hp : parse_tti_block cct (((t :: rest).map TtiBlock.serialize).flatten) =
        Except.ok ((rest.map TtiBlock.serialize).flatten, t) := by
      rw [hser]
      exact parse_tti_fwd cct t _ (hg t (by simp))
    unfold many1Tti
    rw [hp]
    simp only
    rw [many1TtiFrom_fwd cct rest [t] ((rest.map TtiBlock.serialize).flatten.length + 1)
      (fun u hu => hg u (by simp [hu]))
      (by
        rw [tti_flatten_length cct rest (fun u hu => hg u (by simp [hu]))]
        omega)]
    simp

/-- C1 (amended): for every byte sequence (of bytes below 256) that
parses into a document D whose header free-text fields decoded to plain
ASCII, serialization succeeds — producing the header bytes followed by
each record's 128 bytes in sequence order — and parsing the serialized
bytes again yields exactly D, field for field with no exception (the
records of a parsed document carry their raw 112-byte text fields, so
no text is re-truncated).  A header text field with a non-ASCII decoded
character re-encodes as multi-byte UTF-8, overflows its fixed width and
makes serialization panic, so the ASCII restriction is necessary. -/
theorem parse_serialize_roundtrip_amended (bs : List Nat) (D : Stl)
    (hbytes : ∀ b ∈ bs, b < 256)
    (hp : parse_stl_from_slice bs = Except.ok D)
    (hascii : ∀ p ∈ gsiFields D.gsi, ∀ c ∈ (Prod.fst p).data, c.toNat < 0x80) :
    ∃ out, Stl.serialize D = some out ∧ parse_stl_from_slice out = Except.ok D := by
  unfold parse_stl_from_slice at hp
  cases hps : parse_stl bs with
  | error e => rw [hps] at hp; simp at hp
  | ok p =>
    obtain ⟨rem, stl⟩ := p
    rw [hps] at hp
    replace hp : (Except.ok stl : Except ParseError Stl) = Except.ok D := hp
    simp only [Except.ok.injEq] at hp
    subst hp
    unfold parse_stl at hps
    obtain ⟨i, gsi, h1, h2⟩ := pbind_ok hps
    obtain ⟨i2, ttis, h3, h4⟩ := pbind_ok h2
    simp only [Except.ok.injEq, Prod.mk.injEq] at h4
    obtain ⟨hrem, hD⟩ := h4
    subst hD
    obtain ⟨⟨hexact, htnb, htns, htng, hmnc, hmnr, htnd, hdsn⟩, hsuf⟩ := parse_gsi_inv h1
    have hbi : ∀ x ∈ i, x < 256 := fun x hx => hbytes x (hsuf.subset hx)
    have hgood : ∀ t ∈ ttis, ttiGood gsi.cct t := many1Tti_good hbi h3
    have hne : ttis ≠ [] := many1Tti_ne_nil h3
    have hascii2 : ∀ p ∈ gsiFields gsi, ∀ c ∈ (Prod.fst p).data, c.toNat < 0x80 := hascii
    have hfit : gsiStringFits gsi := by
      intro p hp2
      have he := hexact p hp2
      have ha := hascii2 p hp2
      rw [utf8Encode_ascii_length _ ha, he]
    obtain ⟨hser, _⟩ := gsiSerializeCore gsi hfit htnb htns htng hmnc hmnr htnd hdsn
    refine ⟨gsiLayout gsi ++ (ttis.map TtiBlock.serialize).flatten, ?_, ?_⟩
    · show Stl.serialize { gsi := gsi, ttis := ttis } = _
      unfold Stl.serialize
      rw [show ({ gsi := gsi, ttis := ttis } : Stl).gsi = gsi from rfl, hser]
      rfl
    · unfold parse_stl_from_slice parse_stl
      rw [gsi_reparse gsi _ hexact hascii2 htnb htns htng hmnc hmnr htnd hdsn]
      simp only [pbind_ok_eq]
      rw [many1Tti_fwd gsi.cct ttis hne hgood]
      rfl

/-- hdrBytes with the Language Code field replaced by two high
(non-ASCII) code-page bytes; still a perfectly parseable header. -/
def hdrBad : List Nat :=
  asciiBytes "850" ++ asciiBytes "STL25.01" ++ [0x31] ++ asciiBytes "00" ++
  [0x80, 0x80] ++ List.replicate 222 0x20 ++
  asciiBytes "00001" ++ asciiBytes "00001" ++ asciiBytes "001" ++
  asciiBytes "40" ++ asciiBytes "23" ++ [0x31] ++
  asciiBytes "00000000" ++ asciiBytes "00000000" ++ asciiBytes "1" ++ asciiBytes "1" ++
  List.replicate 750 0x20

def roundtripBadBytes : List Nat := hdrBad ++ tti0Bytes

/-- The document parsed from roundtripBadBytes (stl0 is an unreachable
fallback). -/
def roundtripBadParsed : Stl :=
  match parse_stl_from_slice roundtripBadBytes with
  | Except.ok stl => stl
  | Except.error _ => stl0

/-- Counterexample for C1 as stated: a byte sequence that parses into a
document D — its Language Code field holds two non-ASCII characters —
whose serialization panics (modelled as none), because the two
characters re-encode as four UTF-8 bytes and overflow the two-byte
field; so no serialize-then-reparse round trip exists for D. -/
theorem parse_serialize_roundtrip_cex :
    parse_stl_from_slice roundtripBadBytes = Except.ok roundtripBadParsed ∧
    Stl.serialize roundtripBadParsed = none :=
  ⟨rfl, rfl⟩

lemma hdrBytes_lt : ∀ b ∈ hdrBytes, b < 256 := by
  unfold hdrBytes
  simp only [List.append_assoc, List.forall_mem_append]
  refine ⟨by decide, by decide, by decide, by decide, by decide, ?_, by decide, by decide,
    by decide, by decide, by decide, by decide, by decide, by decide, by decide, by decide, ?_⟩
  · intro b hb
    rw [List.eq_of_mem_replicate hb]
    norm_num
  · intro b hb
    rw [List.eq_of_mem_replicate hb]
    norm_num

lemma tti0Bytes_lt : ∀ b ∈ tti0Bytes, b < 256 := by
  unfold tti0Bytes
  simp only [List.append_assoc, List.forall_mem_append]
  refine ⟨by decide, by decide, by decide, by decide, by decide, ?_⟩
  intro b hb
  rw [List.eq_of_mem_replicate hb]
  norm_num

lemma stlBytes_lt : ∀ b ∈ stlBytes, b < 256 := by
  unfold stlBytes
  intro b hb
  rcases List.mem_append.mp hb with hb | hb
  · exact hdrBytes_lt b hb
  · exact tti0Bytes_lt b hb

/-- A string of n space characters. -/
def spaces (n : Nat) : String := String.mk (List.replicate n (Char.ofNat 32))

lemma spaces_ascii (n : Nat) : ∀ c ∈ (spaces n).data, c.toNat < 0x80 := by
  intro c hc
  replace hc : c ∈ List.replicate n (Char.ofNat 32) := hc
  rw [List.eq_of_mem_replicate hc, charToNat_ofNat 32 (by omega)]
  omega

/-- The header value hdrBytes parses to, written out. -/
def gsiLit : GsiBlock :=
  { cpn := CodePageNumber.CPN_850
    dfc := DiskFormatCode.STL25_01
    dsc := DisplayStandardCode.Level1Teletext
    cct := CharacterCodeTable.Latin
    lc := "0F"
    opt := spaces 32
    oet := spaces 32
    tpt := spaces 32
    tet := spaces 32
    tn := spaces 32
    tcd := spaces 32
    slr := spaces 16
    cd := spaces 6
    rd := spaces 6
    rn := spaces 2
    tnb := 1
    tns := 1
    tng := 1
    mnc := 40
    mnr := 23
    tcs := TimeCodeStatus.IntendedForUse
    tcp := "00000000"
    tcf := "00000000"
    tnd := 1
    dsn := 1
    co := spaces 3
    pub_ := spaces 32
    en := spaces 32
    ecd := spaces 32
    _spare := spaces 75
    uda := spaces 576 }

lemma stlParsed_gsi_lit : stlParsed.gsi = gsiLit := rfl

lemma stlParsed_ascii :
    ∀ p ∈ gsiFields stlParsed.gsi, ∀ c ∈ (Prod.fst p).data, c.toNat < 0x80 := by
  rw [stlParsed_gsi_lit]
  intro p hp
  simp only [gsiFields, List.mem_cons, List.not_mem_nil, or_false] at hp
  rcases hp with rfl | rfl | rfl | rfl | rfl | rfl | rfl | rfl | rfl | rfl |
    rfl | rfl | rfl | rfl | rfl | rfl | rfl | rfl | rfl
  all_goals first
    | exact spaces_ascii 32
    | exact spaces_ascii 16
    | exact spaces_ascii 6
    | exact spaces_ascii 2
    | exact spaces_ascii 3
    | exact spaces_ascii 75
    | exact spaces_ascii 576
    | decide

/-- Witness for C1 (amended) on the concrete parsed one-record document:
its serialization succeeds and re-parses to the same document. -/
theorem parse_serialize_roundtrip_witness :
    ∃ out, Stl.serialize stlParsed = some out ∧
      parse_stl_from_slice out = Except.ok stlParsed :=
  parse_serialize_roundtrip_amended stlBytes stlParsed stlBytes_lt rfl stlParsed_ascii

/-- C2: teletext framing encode returns exactly 112 bytes for every
input text, every double-height flag and every CharacterCodeTable
variant: content is capped at 109 bytes, the three control bytes are
appended and the fill byte 0x8F pads to exactly 112. -/
theorem encode_text_length_112 (txt : String) (dh : Bool) (cct : CharacterCodeTable) :
    (encode_text txt dh cct).length = 112 := by
  unfold encode_text
  simp only [List.length_append, List.length_replicate, List.length_cons, List.length_nil]
  have h : (((if dh then [0x0D] else []) ++ [0x0B, 0x0B] ++ textEncode cct txt).take 109).length ≤
      109 := by
    simp [List.length_take]
  omega
